import Mathlib

/-!
Verification of the s3-balance gateway (Go) against its specification.

This file gives a shallow embedding of the parts of the source relevant to
the frozen claims:

* `internal/bucket` — `BucketInfo` with its capacity accounting
  (`GetAvailableSpace`, `UpdateUsedSize`), operation counting
  (`RecordOperation`, `SetOperationCount`) and the health reporter
  (`MetricsReporter.ReportHealth`);
* `internal/balancer` — `Balancer.selectOnce`, `LeastSpaceStrategy.SelectBucket`
  and `ConsistentHashStrategy.SelectBucket` / `updateRing`;
* `internal/storage` — the virtual-bucket mapping table, object records and
  upload sessions, modelled as in-memory lists in insertion (primary-key)
  order;
* `internal/api` — the object handlers `handlePutObject`, `handleCopyObject`,
  `handleDeleteObject`, `handleUploadPart`, the multipart initiation handler
  and the `sendS3Error` status map.

Go `int64` values are modelled as `Int` (no arithmetic here approaches the
64-bit range), `uint32` hash values as `Nat` reduced `% 2^32` at each step.
External effects (the backend HTTP calls and their success or failure) are
passed in as explicit boolean parameters.  Database errors are not modelled:
every storage call in the claims under study either cannot fail in the
in-memory model or, in the source, merely logs the error and proceeds.
-/

set_option maxRecDepth 100000
set_option maxHeartbeats 4000000

namespace S3Balance

/-- `config.OperationLimits` from the bucket configuration: per-class
operation quotas, `0` meaning unlimited. -/
structure OperationLimits where
  typeA : Int
  typeB : Int
deriving DecidableEq

/-- `config.BucketConfig`, restricted to the fields the claims read.
Endpoint, region, credential and path-style fields take no part in any
claim and are omitted. -/
structure BucketConfig where
  name : String
  maxSizeBytes : Int
  weight : Int
  enabled : Bool
  virtual : Bool
  operationLimits : OperationLimits
deriving DecidableEq

/-- `bucket.OperationCategory`: class-A (writing / listing) and class-B
(reading) backend operations.  The Go type is a string with the two
constants `"A"` and `"B"`; the handlers only ever pass these two. -/
inductive OperationCategory where
  | typeA
  | typeB
deriving DecidableEq

/-- `bucket.BucketInfo`: per-backend runtime state.  `lastChecked` is the
probe timestamp (an abstract instant). -/
structure BucketInfo where
  config : BucketConfig
  usedSize : Int
  available : Bool
  lastChecked : Int
  operationCountA : Int
  operationCountB : Int
  operationLimitReached : Bool
deriving DecidableEq

/-- `BucketInfo.GetAvailableSpace`: `1 << 62` when `MaxSizeBytes == 0`
(unlimited), otherwise `MaxSizeBytes - UsedSize`. -/
def BucketInfo.getAvailableSpace (b : BucketInfo) : Int :=
  if b.config.maxSizeBytes = 0 then 2 ^ 62 else b.config.maxSizeBytes - b.usedSize

/-- The class-X operation counter of a backend. -/
def BucketInfo.opCount (b : BucketInfo) : OperationCategory → Int
  | .typeA => b.operationCountA
  | .typeB => b.operationCountB

/-- The configured class-X operation limit of a backend. -/
def BucketInfo.opLimit (b : BucketInfo) : OperationCategory → Int
  | .typeA => b.config.operationLimits.typeA
  | .typeB => b.config.operationLimits.typeB

/-- `BucketInfo.RecordOperation`: increment the class counter and report
`true` exactly when this call newly disables the backend (counter reached a
positive limit for the first time).  Virtual backends are untouched.  The
Go nil-receiver guard cannot arise in the model. -/
def BucketInfo.recordOperation (b : BucketInfo) (category : OperationCategory) :
    BucketInfo × Bool :=
  if b.config.virtual then (b, false)
  else
    let b' : BucketInfo :=
      match category with
      | .typeA => { b with operationCountA := b.operationCountA + 1 }
      | .typeB => { b with operationCountB := b.operationCountB + 1 }
    let limit := b.opLimit category
    if limit ≤ 0 then (b', false)
    else if !b'.operationLimitReached && decide (limit ≤ b'.opCount category) then
      ({ b' with available := false, operationLimitReached := true }, true)
    else (b', false)

/-- `BucketInfo.SetOperationCount`: overwrite the class counter with a
persisted cumulative value and re-evaluate the limit, reporting `true`
exactly when this call newly disables the backend. -/
def BucketInfo.setOperationCount (b : BucketInfo) (category : OperationCategory)
    (value : Int) : BucketInfo × Bool :=
  if b.config.virtual then (b, false)
  else
    let b' : BucketInfo :=
      match category with
      | .typeA => { b with operationCountA := value }
      | .typeB => { b with operationCountB := value }
    let limit := b.opLimit category
    if limit ≤ 0 then (b', false)
    else if !b'.operationLimitReached && decide (limit ≤ value) then
      ({ b' with available := false, operationLimitReached := true }, true)
    else (b', false)

/-- The probe outcome delivered to `MetricsReporter.ReportHealth`
(`health.Status`): a healthy flag and the probe timestamp. -/
structure HealthStatus where
  healthy : Bool
  lastChecked : Int
deriving DecidableEq

/-- The per-bucket update performed by `MetricsReporter.ReportHealth` once
the target is found: `Available` follows the probe outcome unless the
backend was disabled by an operation limit; `LastChecked` is always
written. -/
def reportHealthBucket (status : HealthStatus) (b : BucketInfo) : BucketInfo :=
  { b with
    available := if b.operationLimitReached then b.available else status.healthy,
    lastChecked := status.lastChecked }

/-- `MetricsReporter.ReportHealth`: a no-op when the reporter has no
metrics handle; otherwise the bucket registered under `targetID` receives
`reportHealthBucket`.  The manager map is modelled as the list of buckets,
keyed by configured name. -/
def reportHealth (metricsPresent : Bool) (buckets : List BucketInfo)
    (targetID : String) (status : HealthStatus) : List BucketInfo :=
  if metricsPresent then
    buckets.map fun b =>
      if b.config.name = targetID then reportHealthBucket status b else b
  else buckets

/-- The comparison used by `LeastSpaceStrategy.SelectBucket` for its stable
sort: candidate `a` precedes candidate `b` when `a` has at least as much
available space (Go sorts with the strict `>` comparator; a stable sort for
`>` coincides with the stable insertion sort for the reflexive `≥`). -/
def leastSpaceOrder (a b : BucketInfo) : Prop :=
  b.getAvailableSpace ≤ a.getAvailableSpace

instance : DecidableRel leastSpaceOrder := fun a b =>
  inferInstanceAs (Decidable (b.getAvailableSpace ≤ a.getAvailableSpace))

/-- `LeastSpaceStrategy.SelectBucket`: error on an empty candidate list,
otherwise stably sort by available space descending and return the head.
`key` and `size` are ignored by this strategy, as in the source. -/
def leastSpaceSelectBucket (buckets : List BucketInfo) (key : String)
    (size : Int) : Option BucketInfo :=
  match buckets with
  | [] => none
  | _ :: _ => (List.insertionSort leastSpaceOrder buckets).head?

/-- `storage.VirtualBucketMapping`: one row of the `virtual_bucket_mappings`
table.  The schema declares plain (non-unique) indexes only. -/
structure Mapping where
  virtualBucketName : String
  objectKey : String
  realBucketName : String
  realObjectKey : String
deriving DecidableEq

/-- `storage.Object`, restricted to the fields the claims read. -/
structure ObjectRecord where
  key : String
  bucketName : String
  size : Int
deriving DecidableEq

/-- `storage.UploadSession`, restricted to the fields the claims read.
`status` ranges over the source's string constants. -/
structure UploadSession where
  uploadID : String
  key : String
  bucketName : String
  completedParts : Int
  size : Int
  status : String
deriving DecidableEq

/-- The state a request handler can read and write: the manager's bucket
table (list order standing in for the registry's iteration order) and the
three persistent tables, each in primary-key (insertion) order. -/
structure GatewayState where
  buckets : List BucketInfo
  mappings : List Mapping
  objects : List ObjectRecord
  sessions : List UploadSession
deriving DecidableEq

/-- `Manager.GetBucket`: look up a backend by configured name. -/
def getBucket (st : GatewayState) (name : String) : Option BucketInfo :=
  st.buckets.find? fun b => b.config.name = name

/-- Apply `f` to the backend registered under `name` (the registry holds at
most one backend per name; the model applies `f` to every list entry whose
name matches). -/
def updateBucket (st : GatewayState) (name : String) (f : BucketInfo → BucketInfo) :
    GatewayState :=
  { st with buckets := st.buckets.map fun b => if b.config.name = name then f b else b }

/-- `S3Handler.recordBackendOperation` as it acts on the in-memory counter
of the target backend.  (With a storage service attached the source routes
the increment through the database and writes the new cumulative value back
with `SetOperationCount`; when database and memory agree the effect on the
backend is the same `RecordOperation` step, and no claim under study reads
the persisted counter.) -/
def recordBackendOperationOn (st : GatewayState) (name : String)
    (category : OperationCategory) : GatewayState :=
  updateBucket st name fun b => (b.recordOperation category).1

/-- `storage.Service.GetVirtualBucketMapping`: GORM `First` returns the row
with the smallest primary key, i.e. the first row in insertion order. -/
def getVirtualBucketMapping (st : GatewayState) (v k : String) : Option Mapping :=
  st.mappings.find? fun m => decide (m.virtualBucketName = v ∧ m.objectKey = k)

/-- `storage.Service.CreateVirtualBucketMapping`: unconditional `Create`
of a fresh row (the table has no unique constraint to conflict with). -/
def createVirtualBucketMapping (st : GatewayState) (v k rb rk : String) :
    GatewayState :=
  { st with mappings := st.mappings ++ [⟨v, k, rb, rk⟩] }

/-- `storage.Service.DeleteVirtualBucketObjectMapping`: delete every row of
the given virtual bucket and object key. -/
def deleteVirtualBucketObjectMapping (st : GatewayState) (v k : String) :
    GatewayState :=
  { st with mappings :=
      st.mappings.filter fun m => !decide (m.virtualBucketName = v ∧ m.objectKey = k) }

/-- `storage.Service.CountMappingsToRealObject`: count the rows pointing at
a given real bucket and real object key. -/
def countMappingsToRealObject (st : GatewayState) (rb rk : String) : Nat :=
  st.mappings.countP fun m => decide (m.realBucketName = rb ∧ m.realObjectKey = rk)

/-- `storage.Service.RecordObject` restricted to its table effect: upsert
the record keyed by the (real) object key. -/
def recordObject (st : GatewayState) (k rb : String) (size : Int) : GatewayState :=
  if st.objects.any (fun o => o.key = k) then
    { st with objects :=
        st.objects.map fun o =>
          if o.key = k then { o with bucketName := rb, size := size } else o }
  else
    { st with objects := st.objects ++ [⟨k, rb, size⟩] }

/-- `storage.Service.DeleteObject`: remove the record for the key (the
source soft-deletes; a soft-deleted row is invisible to every later read,
so the model removes it). -/
def deleteObjectRecord (st : GatewayState) (k : String) : GatewayState :=
  { st with objects := st.objects.filter fun o => !decide (o.key = k) }

/-- `storage.Service.GetUploadSessionSize`: the accumulated size of the
session, if the session row exists. -/
def getUploadSessionSize (st : GatewayState) (uploadID : String) : Option Int :=
  (st.sessions.find? fun s => s.uploadID = uploadID).map UploadSession.size

/-- `storage.Service.UpdateUploadSession`: write `completedParts` and
`status` of the session row. -/
def updateUploadSession (st : GatewayState) (uploadID : String)
    (completedParts : Int) (status : String) : GatewayState :=
  { st with sessions := st.sessions.map fun s =>
      if s.uploadID = uploadID then
        { s with completedParts := completedParts, status := status } else s }

/-- `storage.Service.IncrementUploadSessionSize`: add a part size to the
session's accumulated size. -/
def incrementUploadSessionSize (st : GatewayState) (uploadID : String)
    (partSize : Int) : GatewayState :=
  { st with sessions := st.sessions.map fun s =>
      if s.uploadID = uploadID then { s with size := s.size + partSize } else s }

/-- The HTTP status `sendS3Error` attaches to each S3 error code; every
code outside the switch falls through to 400. -/
def sendS3ErrorStatus (code : String) : Nat :=
  if code = "NoSuchBucket" ∨ code = "NoSuchKey" then 404
  else if code = "BucketAlreadyExists" then 409
  else if code = "InvalidAccessKeyId" ∨ code = "SignatureDoesNotMatch" ∨
      code = "AccessDenied" then 403
  else if code = "InternalError" then 500
  else if code = "InsufficientStorage" then 507
  else 400

/-- What a handler writes back: the HTTP status, and the S3 error code when
the reply went through `sendS3Error`. -/
structure S3Reply where
  status : Nat
  errorCode : Option String
deriving DecidableEq

/-- A non-error reply with the given status. -/
def okReply (status : Nat) : S3Reply := ⟨status, none⟩

/-- A reply produced by `sendS3Error`. -/
def errReply (code : String) : S3Reply := ⟨sendS3ErrorStatus code, some code⟩

/-- The selection interface of `balancer.Strategy.SelectBucket`. -/
def Strategy : Type :=
  List BucketInfo → String → Int → Option BucketInfo

/-- `Manager.GetAvailableBuckets`: the non-virtual backends that are
available and within capacity. -/
def getAvailableBuckets (buckets : List BucketInfo) : List BucketInfo :=
  buckets.filter fun b =>
    !b.config.virtual && b.available &&
      (decide (b.config.maxSizeBytes = 0) || decide (b.usedSize < b.config.maxSizeBytes))

/-- `Balancer.selectOnce`: take the available candidates, drop those with
less free space than the payload, and hand the rest to the strategy.  Both
failure returns of the source collapse to `none`.  `Balancer.SelectBucket`
merely repeats this pure computation up to `retry_attempts` times, so its
result coincides with a single `selectOnce`. -/
def selectOnce (strategy : Strategy) (buckets : List BucketInfo) (key : String)
    (size : Int) : Option BucketInfo :=
  match getAvailableBuckets buckets with
  | [] => none
  | avail =>
    match avail.filter (fun b => decide (size ≤ b.getAvailableSpace)) with
    | [] => none
    | filtered => strategy filtered key size

/-- Outcome of `handlePutObject`: the reply, the new state, and the backend
(by name) whose presigned URL received the request body, if any. -/
structure PutResult where
  reply : S3Reply
  st : GatewayState
  uploadedTo : Option String
deriving DecidableEq

/-- The tail of `handlePutObject` once the target backend is resolved:
count a class-A operation, reverse-proxy the body to the presigned URL
(`uploadOk` says whether the backend answered 2xx), and on success record
the object and add the payload size to the backend's used size. -/
def putUpload (st : GatewayState) (targetName key : String) (contentLength : Int)
    (uploadOk : Bool) : PutResult :=
  let st1 := recordBackendOperationOn st targetName .typeA
  if uploadOk then
    let st2 := recordObject st1 key targetName contentLength
    let st3 := updateBucket st2 targetName
      fun b => { b with usedSize := b.usedSize + contentLength }
    ⟨okReply 200, st3, some targetName⟩
  else
    ⟨errReply "InternalError", st1, some targetName⟩

/-- `handlePutObject` on a non-copy request (no `x-amz-copy-source`
header): reject unknown buckets, negative content length and direct writes
to real backends; on a virtual bucket reuse the existing mapping's backend,
or pick one through the balancer and create the mapping before uploading. -/
def handlePutObject (st : GatewayState) (bucketName key : String)
    (contentLength : Int) (strategy : Strategy) (uploadOk : Bool) : PutResult :=
  match getBucket st bucketName with
  | none => ⟨errReply "NoSuchBucket", st, none⟩
  | some requestedBucket =>
    if contentLength < 0 then ⟨errReply "MissingContentLength", st, none⟩
    else if requestedBucket.config.virtual then
      match getVirtualBucketMapping st bucketName key with
      | none =>
        match selectOnce strategy st.buckets key contentLength with
        | none => ⟨errReply "InsufficientStorage", st, none⟩
        | some targetBucket =>
          let st1 := createVirtualBucketMapping st bucketName key
            targetBucket.config.name key
          putUpload st1 targetBucket.config.name key contentLength uploadOk
      | some mapping =>
        match getBucket st mapping.realBucketName with
        | none => ⟨errReply "InternalError", st, none⟩
        | some targetBucket =>
          putUpload st targetBucket.config.name key contentLength uploadOk
    else ⟨errReply "NoSuchBucket", st, none⟩

/-- `handleCopyObject` with the copy source already split into bucket and
key (the handler's string parsing and URL decoding are outside the model):
after the existence checks it only creates a destination mapping aliasing
the source's real bucket and real key — no backend call, no size change,
and no lookup of an existing destination mapping. -/
def handleCopyObject (st : GatewayState) (destBucket destKey sourceBucket
    sourceKey : String) : S3Reply × GatewayState :=
  match getBucket st destBucket with
  | none => (errReply "NoSuchBucket", st)
  | some destInfo =>
    match getBucket st sourceBucket with
    | none => (errReply "NoSuchBucket", st)
    | some _ =>
      match getVirtualBucketMapping st sourceBucket sourceKey with
      | none => (errReply "NoSuchKey", st)
      | some sourceMapping =>
        if !destInfo.config.virtual then (errReply "NoSuchBucket", st)
        else
          (okReply 200, createVirtualBucketMapping st destBucket destKey
            sourceMapping.realBucketName sourceMapping.realObjectKey)

/-- Outcome of `handleDeleteObject`: the reply, the new state, and whether
a presigned DELETE was issued against the backend. -/
structure DeleteResult where
  reply : S3Reply
  st : GatewayState
  backendDeleteIssued : Bool
deriving DecidableEq

/-- `handleDeleteObject`: a mapping miss answers 204 untouched; otherwise
the mapping rows are deleted first, and only when no other mapping still
references the same real object is the backend DELETE issued and the
object record removed.  Failures of the backend DELETE itself are only
logged, so they do not affect the state or the reply. -/
def handleDeleteObject (st : GatewayState) (bucketName key : String) :
    DeleteResult :=
  match getBucket st bucketName with
  | none => ⟨errReply "NoSuchBucket", st, false⟩
  | some requestedBucket =>
    if requestedBucket.config.virtual then
      match getVirtualBucketMapping st bucketName key with
      | none => ⟨okReply 204, st, false⟩
      | some mapping =>
        match getBucket st mapping.realBucketName with
        | none => ⟨errReply "InternalError", st, false⟩
        | some targetBucket =>
          let realKey := mapping.realObjectKey
          let st1 := deleteVirtualBucketObjectMapping st bucketName key
          if countMappingsToRealObject st1 targetBucket.config.name realKey = 0 then
            let st2 := recordBackendOperationOn st1 targetBucket.config.name .typeA
            let st3 := deleteObjectRecord st2 realKey
            ⟨okReply 204, st3, true⟩
          else ⟨okReply 204, st1, false⟩
    else ⟨okReply 204, st, false⟩

/-- The mapping-resolution part of `handleGetObject` (the presigning and
proxying of the response body are outside the model): the real bucket name
and real object key the GET is served from, or the S3 error code sent. -/
def resolveGetObject (st : GatewayState) (bucketName key : String) :
    Except String (String × String) :=
  match getBucket st bucketName with
  | none => .error "NoSuchBucket"
  | some requestedBucket =>
    if requestedBucket.config.virtual then
      match getVirtualBucketMapping st bucketName key with
      | none => .error "NoSuchKey"
      | some mapping =>
        match getBucket st mapping.realBucketName with
        | none => .error "InternalError"
        | some bucket1 => .ok (bucket1.config.name, mapping.realObjectKey)
    else .ok (requestedBucket.config.name, key)

/-- `abortMultipartUploadInternal`: count the class-A operation, issue the
backend `AbortMultipartUpload` (`abortOk` says whether it succeeded), and
mark the session aborted only when the backend call succeeded — on error
the source returns before touching the session. -/
def abortMultipartUploadInternal (st : GatewayState) (targetName key
    uploadID : String) (abortOk : Bool) : GatewayState :=
  let st1 := recordBackendOperationOn st targetName .typeA
  if abortOk then updateUploadSession st1 uploadID 0 "aborted" else st1

/-- Outcome of `handleUploadPart`: the reply, the new state, whether a
backend `AbortMultipartUpload` was issued, and whether the part body was
forwarded to the backend. -/
structure UploadPartResult where
  reply : S3Reply
  st : GatewayState
  backendAbortIssued : Bool
  partUploaded : Bool
deriving DecidableEq

/-- `handleUploadPart` from the point where the target backend has been
resolved through the existing mapping (the mapping-miss branch goes through
the balancer instead and is irrelevant to the claims): count the class-A
operation, project the session size, and either abort on capacity overrun
or forward the part.  `targetBucket` is the backend the mapping resolved
to; its available space is read from the resolved pointer, which the
preceding `RecordOperation` call cannot have changed (it touches only the
operation counters and flags). -/
def uploadPartResolved (st : GatewayState) (targetBucket : BucketInfo)
    (key uploadID : String) (contentLength : Int) (abortOk uploadOk : Bool) :
    UploadPartResult :=
  let st1 := recordBackendOperationOn st targetBucket.config.name .typeA
  let currentSize := (getUploadSessionSize st1 uploadID).getD 0
  let projectedSize := currentSize + contentLength
  let availableSpace := targetBucket.getAvailableSpace
  if availableSpace < projectedSize then
    let st2 := abortMultipartUploadInternal st1 targetBucket.config.name key
      uploadID abortOk
    ⟨errReply "EntityTooLarge", st2, true, false⟩
  else
    if uploadOk then
      let st2 :=
        match st1.sessions.find? (fun s => s.uploadID = uploadID) with
        | none => st1
        | some session =>
          incrementUploadSessionSize
            (updateUploadSession st1 uploadID (session.completedParts + 1) "pending")
            uploadID contentLength
      ⟨okReply 200, st2, false, true⟩
    else ⟨errReply "InternalError", st1, false, true⟩

/-- `handleUploadPart`: bucket and content-length checks, then resolution
of the target backend — through the existing mapping, or on a mapping miss
through the balancer (creating the mapping that should have existed). -/
def handleUploadPart (st : GatewayState) (bucketName key uploadID : String)
    (contentLength : Int) (strategy : Strategy) (abortOk uploadOk : Bool) :
    UploadPartResult :=
  match getBucket st bucketName with
  | none => ⟨errReply "NoSuchBucket", st, false, false⟩
  | some requestedBucket =>
    if contentLength < 0 then ⟨errReply "MissingContentLength", st, false, false⟩
    else if requestedBucket.config.virtual then
      match getVirtualBucketMapping st bucketName key with
      | none =>
        match selectOnce strategy st.buckets key contentLength with
        | none => ⟨errReply "InternalError", st, false, false⟩
        | some targetBucket =>
          let st1 := createVirtualBucketMapping st bucketName key
            targetBucket.config.name key
          uploadPartResolved st1 targetBucket key uploadID contentLength
            abortOk uploadOk
      | some mapping =>
        match getBucket st mapping.realBucketName with
        | none => ⟨errReply "InternalError", st, false, false⟩
        | some targetBucket =>
          uploadPartResolved st targetBucket key uploadID contentLength
            abortOk uploadOk
    else ⟨errReply "NoSuchBucket", st, false, false⟩

/-- `handleMultipartUpload` (initiate), restricted to its state effect: on
a virtual bucket the balancer picks a backend with size hint 0, a mapping
row is created unconditionally — without looking for an existing one — a
class-A operation is counted, and the session row for the backend-issued
`uploadID` is recorded. -/
def handleMultipartInitiate (st : GatewayState) (bucketName key uploadID : String)
    (strategy : Strategy) : S3Reply × GatewayState :=
  match getBucket st bucketName with
  | none => (errReply "NoSuchBucket", st)
  | some requestedBucket =>
    if requestedBucket.config.virtual then
      match selectOnce strategy st.buckets key 0 with
      | none => (errReply "InternalError", st)
      | some targetBucket =>
        let st1 := createVirtualBucketMapping st bucketName key
          targetBucket.config.name key
        let st2 := recordBackendOperationOn st1 targetBucket.config.name .typeA
        let st3 := { st2 with sessions :=
          st2.sessions ++ [⟨uploadID, key, targetBucket.config.name, 0, 0, "pending"⟩] }
        (okReply 200, st3)
    else (errReply "NoSuchBucket", st)

/-- The round constants of MD5 (RFC 1321), used by the `crypto/md5`
primitive that `ConsistentHashStrategy.hash` consumes. -/
def md5K : List Nat :=
  [0xd76aa478, 0xe8c7b756, 0x242070db, 0xc1bdceee,
   0xf57c0faf, 0x4787c62a, 0xa8304613, 0xfd469501,
   0x698098d8, 0x8b44f7af, 0xffff5bb1, 0x895cd7be,
   0x6b901122, 0xfd987193, 0xa679438e, 0x49b40821,
   0xf61e2562, 0xc040b340, 0x265e5a51, 0xe9b6c7aa,
   0xd62f105d, 0x02441453, 0xd8a1e681, 0xe7d3fbc8,
   0x21e1cde6, 0xc33707d6, 0xf4d50d87, 0x455a14ed,
   0xa9e3e905, 0xfcefa3f8, 0x676f02d9, 0x8d2a4c8a,
   0xfffa3942, 0x8771f681, 0x6d9d6122, 0xfde5380c,
   0xa4beea44, 0x4bdecfa9, 0xf6bb4b60, 0xbebfbc70,
   0x289b7ec6, 0xeaa127fa, 0xd4ef3085, 0x04881d05,
   0xd9d4d039, 0xe6db99e5, 0x1fa27cf8, 0xc4ac5665,
   0xf4292244, 0x432aff97, 0xab9423a7, 0xfc93a039,
   0x655b59c3, 0x8f0ccc92, 0xffeff47d, 0x85845dd1,
   0x6fa87e4f, 0xfe2ce6e0, 0xa3014314, 0x4e0811a1,
   0xf7537e82, 0xbd3af235, 0x2ad7d2bb, 0xeb86d391]

/-- The per-round left-rotation amounts of MD5 (RFC 1321). -/
def md5S : List Nat :=
  [7, 12, 17, 22, 7, 12, 17, 22, 7, 12, 17, 22, 7, 12, 17, 22,
   5, 9, 14, 20, 5, 9, 14, 20, 5, 9, 14, 20, 5, 9, 14, 20,
   4, 11, 16, 23, 4, 11, 16, 23, 4, 11, 16, 23, 4, 11, 16, 23,
   6, 10, 15, 21, 6, 10, 15, 21, 6, 10, 15, 21, 6, 10, 15, 21]

/-- 32-bit complement. -/
def not32 (x : Nat) : Nat := x ^^^ 0xFFFFFFFF

/-- 32-bit left rotation. -/
def rotl32 (x s : Nat) : Nat := ((x <<< s) ||| (x >>> (32 - s))) % 4294967296

/-- MD5 padding: a 0x80 byte, zeros up to 56 mod 64, then the bit length
as eight little-endian bytes. -/
def md5Pad (msg : List Nat) : List Nat :=
  let l := msg.length
  let z := (119 - l % 64) % 64
  msg ++ [0x80] ++ List.replicate z 0 ++
    (List.range 8).map (fun i => ((l * 8) >>> (8 * i)) % 256)

/-- Split a byte list into 64-byte chunks (fuelled by the list length so
that the recursion is structural). -/
def chunksAux : Nat → List Nat → List (List Nat)
  | 0, _ => []
  | _, [] => []
  | n + 1, l => (l.take 64) :: chunksAux n (l.drop 64)

/-- The 64-byte chunks of a padded message. -/
def chunks64 (l : List Nat) : List (List Nat) := chunksAux l.length l

/-- The `g`-th little-endian 32-bit word of a 64-byte chunk. -/
def md5Word (chunk : List Nat) (g : Nat) : Nat :=
  chunk.getD (4 * g) 0 + ((chunk.getD (4 * g + 1) 0) <<< 8) +
    ((chunk.getD (4 * g + 2) 0) <<< 16) + ((chunk.getD (4 * g + 3) 0) <<< 24)

/-- The four 32-bit registers of the MD5 compression function. -/
structure MD5State where
  a : Nat
  b : Nat
  c : Nat
  d : Nat

/-- One of the 64 rounds of the MD5 compression function. -/
def md5Round (chunk : List Nat) (st : MD5State) (i : Nat) : MD5State :=
  let fg : Nat × Nat :=
    if i < 16 then ((st.b &&& st.c) ||| (not32 st.b &&& st.d), i)
    else if i < 32 then ((st.d &&& st.b) ||| (not32 st.d &&& st.c), (5 * i + 1) % 16)
    else if i < 48 then (st.b ^^^ st.c ^^^ st.d, (3 * i + 5) % 16)
    else (st.c ^^^ (st.b ||| not32 st.d), (7 * i) % 16)
  let f := (fg.1 + st.a + md5K.getD i 0 + md5Word chunk fg.2) % 4294967296
  { a := st.d, d := st.c, c := st.b,
    b := (st.b + rotl32 f (md5S.getD i 0)) % 4294967296 }

/-- The MD5 compression function on one 64-byte chunk. -/
def md5Chunk (st : MD5State) (chunk : List Nat) : MD5State :=
  let r := (List.range 64).foldl (md5Round chunk) st
  { a := (st.a + r.a) % 4294967296, b := (st.b + r.b) % 4294967296,
    c := (st.c + r.c) % 4294967296, d := (st.d + r.d) % 4294967296 }

/-- The MD5 initial register values. -/
def md5Init : MD5State := ⟨0x67452301, 0xefcdab89, 0x98badcfe, 0x10325476⟩

/-- `ConsistentHashStrategy.hash` applied to a byte message: run MD5 and
read the first four digest bytes as a big-endian `uint32`.  The first four
digest bytes are the little-endian bytes of register `a`, so the result is
the byte swap of the final `a`. -/
def md5Hash32 (msg : List Nat) : Nat :=
  let fin := (chunks64 (md5Pad msg)).foldl md5Chunk md5Init
  ((fin.a % 256) <<< 24) ||| (((fin.a >>> 8) % 256) <<< 16) |||
    (((fin.a >>> 16) % 256) <<< 8) ||| ((fin.a >>> 24) % 256)

/-- Go's `[]byte(s)`: the UTF-8 encoding of one code point. -/
def utf8Bytes (c : Nat) : List Nat :=
  if c < 0x80 then [c]
  else if c < 0x800 then [0xC0 ||| (c >>> 6), 0x80 ||| (c &&& 0x3F)]
  else if c < 0x10000 then
    [0xE0 ||| (c >>> 12), 0x80 ||| ((c >>> 6) &&& 0x3F), 0x80 ||| (c &&& 0x3F)]
  else
    [0xF0 ||| (c >>> 18), 0x80 ||| ((c >>> 12) &&& 0x3F),
     0x80 ||| ((c >>> 6) &&& 0x3F), 0x80 ||| (c &&& 0x3F)]

/-- Go's `[]byte(s)` on a whole string. -/
def strBytes (s : String) : List Nat := s.data.flatMap fun c => utf8Bytes c.toNat

/-- `ConsistentHashStrategy.hash` on a string key. -/
def chHash (s : String) : Nat := md5Hash32 (strBytes s)

/-- The label of the `i`-th virtual node of a backend:
`fmt.Sprintf("%s-%d", name, i)`. -/
def virtualNodeKey (name : String) (i : Nat) : String :=
  name ++ "-" ++ toString i

/-- One entry of the consistent-hash ring: a virtual-node hash and the
backend it belongs to. -/
structure RingEntry where
  hash : Nat
  bucket : BucketInfo
deriving DecidableEq

/-- The ring entries contributed by one backend in `updateRing`:
`replicas` virtual nodes. -/
def ringEntriesOf (hash : String → Nat) (replicas : Nat) (b : BucketInfo) :
    List RingEntry :=
  (List.range replicas).map fun i => ⟨hash (virtualNodeKey b.config.name i), b⟩

/-- All ring entries of `updateRing`, in the insertion order of the Go
loops (candidate order, then virtual-node index). -/
def ringEntries (hash : String → Nat) (replicas : Nat)
    (buckets : List BucketInfo) : List RingEntry :=
  buckets.flatMap (ringEntriesOf hash replicas)

/-- The Go `ring` map lookup after all insertions: the last entry written
under a hash wins, `none` if the hash was never inserted. -/
def ringFind (entries : List RingEntry) (h : Nat) : Option BucketInfo :=
  entries.foldl (fun acc e => if e.hash = h then some e.bucket else acc) none

/-- `s.nodes` after `updateRing`: the multiset of virtual-node hashes in
ascending order (`sort.Slice`). -/
def ringNodes (entries : List RingEntry) : List Nat :=
  List.insertionSort (fun a b => a ≤ b) (entries.map RingEntry.hash)

/-- The node chosen for a key hash: `sort.Search` finds the first node
whose hash is at least the key's (on the sorted node list the binary
search coincides with the first match), wrapping to the head when every
node hashes below the key. -/
def chooseNode (ns : List Nat) (h : Nat) : Option Nat :=
  match ns.find? (fun n => decide (h ≤ n)) with
  | some s => some s
  | none => ns.head?

/-- `ConsistentHashStrategy.SelectBucket` with the hash function abstracted
(the source fixes it to `chHash`): empty candidate lists fail, otherwise
the ring is rebuilt from the candidates and the bucket owning the chosen
node is returned.  `size` is ignored by this strategy, as in the source. -/
def chSelectWith (hash : String → Nat) (replicas : Nat)
    (buckets : List BucketInfo) (key : String) (size : Int) : Option BucketInfo :=
  match buckets with
  | [] => none
  | _ :: _ =>
    let entries := ringEntries hash replicas buckets
    match chooseNode (ringNodes entries) (hash key) with
    | some s => ringFind entries s
    | none => none

/-- `ConsistentHashStrategy.SelectBucket` proper: the MD5-based hash, with
the virtual-node count as a parameter (100 by default, adjustable through
`SetReplicas`). -/
def consistentHashSelectBucket (replicas : Nat) (buckets : List BucketInfo)
    (key : String) (size : Int) : Option BucketInfo :=
  chSelectWith chHash replicas buckets key size

/-- The multiset of virtual-node hashes of a candidate list under a hash
function; the claim about ring stability assumes these collide nowhere. -/
def ringHashes (hash : String → Nat) (replicas : Nat)
    (buckets : List BucketInfo) : List Nat :=
  (ringEntries hash replicas buckets).map RingEntry.hash

/-! Concrete fixtures used by the closed counterexamples and witnesses. -/

/-- An unlimited operation quota. -/
def noLimits : OperationLimits := ⟨0, 0⟩

/-- A freshly constructed virtual bucket. -/
def mkVirtualBucket (name : String) : BucketInfo :=
  ⟨⟨name, 0, 1, true, true, noLimits⟩, 0, true, 0, 0, 0, false⟩

/-- A freshly constructed real backend with a capacity and a used size. -/
def mkRealBucket (name : String) (maxSize used : Int) : BucketInfo :=
  ⟨⟨name, maxSize, 1, true, false, noLimits⟩, used, true, 0, 0, 0, false⟩

/-- State for the C1 scenario: one virtual bucket and one unlimited
backend, with empty tables. -/
def bugState : GatewayState :=
  ⟨[mkVirtualBucket "v", mkRealBucket "b1" 0 0], [], [], []⟩

/-- An unlimited backend that is heavily used. -/
def cexUnlimited : BucketInfo := mkRealBucket "b1" 0 100

/-- A small, empty backend. -/
def cexSmall : BucketInfo := mkRealBucket "b2" 10 0

/-- State for the C2 witness: the only backend has 10 bytes free. -/
def w2State : GatewayState :=
  ⟨[mkVirtualBucket "v", mkRealBucket "b1" 10 0], [], [], []⟩

/-- State for the C6 scenario: backend with 10 bytes free, a multipart
mapping, and a pending session that has accumulated 6 bytes. -/
def w6State : GatewayState :=
  ⟨[mkVirtualBucket "v", mkRealBucket "b1" 10 0],
   [⟨"v", "big", "b1", "big"⟩], [],
   [⟨"u1", "big", "b1", 1, 6, "pending"⟩]⟩

/-- State for the C7 counterexample: a mapping pointing at a backend that
is no longer registered. -/
def c7State : GatewayState :=
  ⟨[mkVirtualBucket "v"], [⟨"v", "k", "ghost", "k"⟩], [], []⟩

/-- State for the C7 witness: one object with its only mapping. -/
def w7State : GatewayState :=
  ⟨[mkVirtualBucket "v", mkRealBucket "b1" 0 1],
   [⟨"v", "k", "b1", "k"⟩], [⟨"k", "b1", 1⟩], []⟩

/-- State for the C8 witness: a source object on backend `b1` and a free
destination key. -/
def w8State : GatewayState :=
  ⟨[mkVirtualBucket "v", mkRealBucket "b1" 0 5],
   [⟨"v", "src", "b1", "src"⟩], [⟨"src", "b1", 5⟩], []⟩

/-- Backend for the C9 witness: disabled because its class-A limit of 3 was
reached. -/
def w9Bucket : BucketInfo :=
  ⟨⟨"b1", 0, 1, true, false, ⟨3, 0⟩⟩, 0, false, 0, 3, 0, true⟩

/-- State for the C10 witness: the mapped backend has only 2 of 10 bytes
free, and the key is already mapped to it. -/
def w10State : GatewayState :=
  ⟨[mkVirtualBucket "v", mkRealBucket "b1" 10 8],
   [⟨"v", "k", "b1", "k"⟩], [⟨"k", "b1", 8⟩], []⟩

/-- Candidate backends for the C4 witness. -/
def chB1 : BucketInfo := mkRealBucket "b1" 0 0

/-- Candidate backends for the C4 witness. -/
def chB2 : BucketInfo := mkRealBucket "b2" 0 0

/-- Candidate backends for the C4 witness. -/
def chB3 : BucketInfo := mkRealBucket "b3" 0 0

/-- Object key for the C4 witness (scenario 3 of the specification). -/
def chKey : String := "user/42/avatar.png"

/-- A backend about to reach its class-A limit, for the C5 witness. -/
def w5Bucket : BucketInfo :=
  ⟨⟨"b1", 0, 1, true, false, ⟨3, 0⟩⟩, 0, true, 0, 2, 0, false⟩

/-- A backend whose first virtual-node label `m08-0` collides with
`yfk-0` in the 32-bit MD5 prefix (both hash to 1091209121). -/
def collB1 : BucketInfo := mkRealBucket "m08" 0 0

/-- The other half of the colliding pair. -/
def collB2 : BucketInfo := mkRealBucket "yfk" 0 0

/-! Theorems. -/

/-- The newly-disabled result of `RecordOperation`, characterised. -/
theorem recordOperation_snd_iff (b : BucketInfo) (cat : OperationCategory) :
    (b.recordOperation cat).2 = true ↔
      b.config.virtual = false ∧ b.operationLimitReached = false ∧
        0 < b.opLimit cat ∧ b.opLimit cat ≤ b.opCount cat + 1 := by
  cases cat <;>
    simp only [BucketInfo.recordOperation, BucketInfo.opLimit, BucketInfo.opCount] <;>
    split_ifs with hv hl hfire <;>
    simp_all [BucketInfo.opLimit, BucketInfo.opCount]

/-- The newly-disabled result of `SetOperationCount`, characterised. -/
theorem setOperationCount_snd_iff (b : BucketInfo) (cat : OperationCategory)
    (value : Int) :
    (b.setOperationCount cat value).2 = true ↔
      b.config.virtual = false ∧ b.operationLimitReached = false ∧
        0 < b.opLimit cat ∧ b.opLimit cat ≤ value := by
  cases cat <;>
    simp only [BucketInfo.setOperationCount, BucketInfo.opLimit] <;>
    split_ifs with hv hl hfire <;>
    simp_all [BucketInfo.opLimit]

/-- When `RecordOperation` reports the backend newly disabled, the backend
is left unavailable with the limit flag set. -/
theorem recordOperation_disables (b : BucketInfo) (cat : OperationCategory)
    (h : (b.recordOperation cat).2 = true) :
    (b.recordOperation cat).1.available = false ∧
      (b.recordOperation cat).1.operationLimitReached = true := by
  cases cat <;>
    simp only [BucketInfo.recordOperation, BucketInfo.opLimit, BucketInfo.opCount]
      at h ⊢ <;>
    split_ifs at h ⊢ <;> simp_all

/-- When `SetOperationCount` reports the backend newly disabled, the
backend is left unavailable with the limit flag set. -/
theorem setOperationCount_disables (b : BucketInfo) (cat : OperationCategory)
    (value : Int) (h : (b.setOperationCount cat value).2 = true) :
    (b.setOperationCount cat value).1.available = false ∧
      (b.setOperationCount cat value).1.operationLimitReached = true := by
  cases cat <;>
    simp only [BucketInfo.setOperationCount, BucketInfo.opLimit] at h ⊢ <;>
    split_ifs at h ⊢ <;> simp_all

/-- Once the limit flag is set, neither counting call clears it or touches
availability. -/
theorem limit_flag_sticky (b : BucketInfo) (cat : OperationCategory)
    (value : Int) (h : b.operationLimitReached = true) :
    (b.recordOperation cat).1.operationLimitReached = true ∧
      (b.recordOperation cat).1.available = b.available ∧
      (b.setOperationCount cat value).1.operationLimitReached = true ∧
      (b.setOperationCount cat value).1.available = b.available := by
  cases cat <;>
    simp only [BucketInfo.recordOperation, BucketInfo.setOperationCount,
      BucketInfo.opLimit, BucketInfo.opCount] <;>
    split_ifs <;> simp_all

/-- Neither counting call can make an unavailable backend available. -/
theorem counting_never_enables (b : BucketInfo) (cat : OperationCategory)
    (value : Int) :
    ((b.recordOperation cat).1.available = true → b.available = true) ∧
      ((b.setOperationCount cat value).1.available = true → b.available = true) := by
  cases cat <;>
    simp only [BucketInfo.recordOperation, BucketInfo.setOperationCount,
      BucketInfo.opLimit, BucketInfo.opCount] <;>
    split_ifs <;> simp_all

/-- Claim C5: for a non-virtual backend with a positive class-X limit, the
first `RecordOperation` (or `SetOperationCount`) call that brings the
class-X counter up to the limit — i.e. a call in a state where the limit
flag is not yet set whose new counter value reaches the limit — makes the
backend unavailable, sets the limit flag, and returns the newly-disabled
flag `true`; every other call (counter still below the limit, flag already
set, limit configured as 0, or a virtual backend) returns `false`; and
once the flag is set, further counting calls keep it set and leave
availability untouched (in particular, neither call ever re-enables a
disabled backend). -/
theorem claim5_operation_limit (b : BucketInfo) (cat : OperationCategory)
    (value : Int) :
    ((b.recordOperation cat).2 = true ↔
      b.config.virtual = false ∧ b.operationLimitReached = false ∧
        0 < b.opLimit cat ∧ b.opLimit cat ≤ b.opCount cat + 1) ∧
    ((b.recordOperation cat).2 = true →
      (b.recordOperation cat).1.available = false ∧
        (b.recordOperation cat).1.operationLimitReached = true) ∧
    ((b.setOperationCount cat value).2 = true ↔
      b.config.virtual = false ∧ b.operationLimitReached = false ∧
        0 < b.opLimit cat ∧ b.opLimit cat ≤ value) ∧
    ((b.setOperationCount cat value).2 = true →
      (b.setOperationCount cat value).1.available = false ∧
        (b.setOperationCount cat value).1.operationLimitReached = true) ∧
    (b.operationLimitReached = true →
      (b.recordOperation cat).1.operationLimitReached = true ∧
        (b.recordOperation cat).1.available = b.available ∧
        (b.setOperationCount cat value).1.operationLimitReached = true ∧
        (b.setOperationCount cat value).1.available = b.available) ∧
    ((b.recordOperation cat).1.available = true → b.available = true) ∧
    ((b.setOperationCount cat value).1.available = true → b.available = true) :=
  ⟨recordOperation_snd_iff b cat, recordOperation_disables b cat,
    setOperationCount_snd_iff b cat value, setOperationCount_disables b cat value,
    limit_flag_sticky b cat value,
    (counting_never_enables b cat value).1, (counting_never_enables b cat value).2⟩

/-- Witness for C5: a backend two operations into a class-A limit of 3 is
newly disabled by its third recorded operation. -/
theorem claim5_witness :
    ((w5Bucket.recordOperation .typeA).2 = true ↔
      w5Bucket.config.virtual = false ∧ w5Bucket.operationLimitReached = false ∧
        0 < w5Bucket.opLimit .typeA ∧
        w5Bucket.opLimit .typeA ≤ w5Bucket.opCount .typeA + 1) ∧
    ((w5Bucket.recordOperation .typeA).2 = true →
      (w5Bucket.recordOperation .typeA).1.available = false ∧
        (w5Bucket.recordOperation .typeA).1.operationLimitReached = true) ∧
    ((w5Bucket.setOperationCount .typeA 3).2 = true ↔
      w5Bucket.config.virtual = false ∧ w5Bucket.operationLimitReached = false ∧
        0 < w5Bucket.opLimit .typeA ∧ w5Bucket.opLimit .typeA ≤ 3) ∧
    ((w5Bucket.setOperationCount .typeA 3).2 = true →
      (w5Bucket.setOperationCount .typeA 3).1.available = false ∧
        (w5Bucket.setOperationCount .typeA 3).1.operationLimitReached = true) ∧
    (w5Bucket.operationLimitReached = true →
      (w5Bucket.recordOperation .typeA).1.operationLimitReached = true ∧
        (w5Bucket.recordOperation .typeA).1.available = w5Bucket.available ∧
        (w5Bucket.setOperationCount .typeA 3).1.operationLimitReached = true ∧
        (w5Bucket.setOperationCount .typeA 3).1.available = w5Bucket.available) ∧
    ((w5Bucket.recordOperation .typeA).1.available = true →
      w5Bucket.available = true) ∧
    ((w5Bucket.setOperationCount .typeA 3).1.available = true →
      w5Bucket.available = true) :=
  claim5_operation_limit w5Bucket .typeA 3

/-- Claim C9: a health-probe report never changes the availability of a
backend disabled by an operation limit.  For any backend in the table with
the limit flag set and availability `false`, `ReportHealth` — whatever the
probe outcome — leaves it unavailable with the flag set and all counters
and configuration intact; only the last-checked timestamp is written (and
only on the probe's own target). -/
theorem claim9_health_probe_limit_disable (buckets : List BucketInfo)
    (targetID : String) (status : HealthStatus) (i : Nat) (b : BucketInfo)
    (hb : buckets[i]? = some b) (hflag : b.operationLimitReached = true)
    (hav : b.available = false) :
    ∃ b', (reportHealth true buckets targetID status)[i]? = some b' ∧
      b'.available = false ∧ b'.operationLimitReached = true ∧
      b'.config = b.config ∧ b'.usedSize = b.usedSize ∧
      b'.operationCountA = b.operationCountA ∧
      b'.operationCountB = b.operationCountB ∧
      (b.config.name = targetID → b'.lastChecked = status.lastChecked) ∧
      (b.config.name ≠ targetID → b' = b) := by
  refine ⟨if b.config.name = targetID then reportHealthBucket status b else b, ?_, ?_⟩
  · simp [reportHealth, List.getElem?_map, hb]
  · by_cases hname : b.config.name = targetID <;>
      simp [hname, reportHealthBucket, hflag, hav]

/-- Witness for C9: a backend disabled by its class-A quota stays
unavailable through a healthy probe report. -/
theorem claim9_witness :
    ∃ b', (reportHealth true [w9Bucket] "b1" ⟨true, 42⟩)[0]? = some b' ∧
      b'.available = false ∧ b'.operationLimitReached = true ∧
      b'.config = w9Bucket.config ∧ b'.usedSize = w9Bucket.usedSize ∧
      b'.operationCountA = w9Bucket.operationCountA ∧
      b'.operationCountB = w9Bucket.operationCountB ∧
      (w9Bucket.config.name = "b1" → b'.lastChecked = 42) ∧
      (w9Bucket.config.name ≠ "b1" → b' = w9Bucket) :=
  claim9_health_probe_limit_disable [w9Bucket] "b1" ⟨true, 42⟩ 0 w9Bucket
    (by decide) (by decide) (by decide)

/-- Counterexample to C3 as stated: the least-space strategy does not
return the candidate with the smallest used-bytes.  With an unlimited
backend holding 100 bytes and a 10-byte backend holding 0, the strategy
returns the unlimited one (available space `2^62`), although the other
candidate has strictly smaller used-bytes. -/
theorem claim3_counterexample :
    leastSpaceSelectBucket [cexUnlimited, cexSmall] "k" 1 = some cexUnlimited ∧
      cexSmall ∈ [cexUnlimited, cexSmall] ∧
      cexSmall.usedSize < cexUnlimited.usedSize := by
  refine ⟨by decide, by decide, by decide⟩

/-- Head of an ordered insertion: the inserted element when it precedes
the old head, the old head otherwise. -/
theorem head?_orderedInsert (a : BucketInfo) (l : List BucketInfo) :
    (List.orderedInsert leastSpaceOrder a l).head? =
      some (match l with
            | [] => a
            | y :: _ => if leastSpaceOrder a y then a else y) := by
  cases l with
  | nil => rfl
  | cons y ys =>
    by_cases h : leastSpaceOrder a y <;> simp [List.orderedInsert, h]

/-- The head of the stable sort by available space descending is the first
candidate attaining the maximum available space. -/
theorem insertionSort_head_first_max :
    ∀ (l : List BucketInfo) (b : BucketInfo),
      (List.insertionSort leastSpaceOrder l).head? = some b →
      ∃ l1 l2, l = l1 ++ b :: l2 ∧
        (∀ c ∈ l1, c.getAvailableSpace < b.getAvailableSpace) ∧
        (∀ c ∈ l, c.getAvailableSpace ≤ b.getAvailableSpace)
  | [], b => by simp [List.insertionSort]
  | x :: xs, b => by
    intro hhead
    rw [show List.insertionSort leastSpaceOrder (x :: xs) =
        List.orderedInsert leastSpaceOrder x (List.insertionSort leastSpaceOrder xs)
      from rfl, head?_orderedInsert] at hhead
    rcases hsort : List.insertionSort leastSpaceOrder xs with _ | ⟨y, ys⟩
    · have hperm := List.perm_insertionSort leastSpaceOrder xs
      rw [hsort] at hperm
      have hxs : xs = [] := hperm.symm.eq_nil
      rw [hsort] at hhead
      simp at hhead
      subst hhead
      exact ⟨[], xs, rfl, by simp, by simp [hxs]⟩
    · have hy := insertionSort_head_first_max xs y (by rw [hsort]; rfl)
      rcases hy with ⟨l1, l2, hdecomp, hstrict, hmax⟩
      rw [hsort] at hhead
      simp only at hhead
      by_cases hxy : leastSpaceOrder x y
      · rw [if_pos hxy] at hhead
        cases hhead
        refine ⟨[], xs, rfl, by simp, ?_⟩
        intro c hc
        rcases List.mem_cons.1 hc with hc | hc
        · subst hc; exact le_refl _
        · exact le_trans (hmax c hc) hxy
      · rw [if_neg hxy] at hhead
        cases hhead
        have hlt : x.getAvailableSpace < b.getAvailableSpace := by
          simpa [leastSpaceOrder, not_le] using hxy
        refine ⟨x :: l1, l2, by rw [hdecomp, List.cons_append], ?_, ?_⟩
        · intro c hc
          rcases List.mem_cons.1 hc with hc | hc
          · subst hc; exact hlt
          · exact hstrict c hc
        · intro c hc
          rcases List.mem_cons.1 hc with hc | hc
          · subst hc; exact le_of_lt hlt
          · exact hmax c hc

/-- Claim C3 (amended): for every non-empty candidate list, the
least-space strategy returns the candidate with the largest available
space — available space being `max-bytes − used-bytes`, or `2^62` when
`max-bytes = 0` — and among ties the one earliest in the original
candidate order.  (As stated, the claim also calls this the candidate with
the smallest used-bytes; that only coincides when all candidates share the
same `max-bytes`, and fails otherwise.) -/
theorem claim3_least_space_first_max (buckets : List BucketInfo) (key : String)
    (size : Int) (hne : buckets ≠ []) :
    ∃ b l1 l2, leastSpaceSelectBucket buckets key size = some b ∧
      buckets = l1 ++ b :: l2 ∧
      (∀ c ∈ l1, c.getAvailableSpace < b.getAvailableSpace) ∧
      (∀ c ∈ buckets, c.getAvailableSpace ≤ b.getAvailableSpace) := by
  rcases buckets with _ | ⟨x, xs⟩
  · exact absurd rfl hne
  · have hne' : List.insertionSort leastSpaceOrder (x :: xs) ≠ [] := by
      intro h
      have hperm := List.perm_insertionSort leastSpaceOrder (x :: xs)
      rw [h] at hperm
      exact absurd hperm.symm.eq_nil (by simp)
    rcases hsort : List.insertionSort leastSpaceOrder (x :: xs) with _ | ⟨b, rest⟩
    · exact absurd hsort hne'
    · have hhead : (List.insertionSort leastSpaceOrder (x :: xs)).head? = some b := by
        rw [hsort]; rfl
      obtain ⟨l1, l2, hdecomp, hstrict, hmax⟩ :=
        insertionSort_head_first_max (x :: xs) b hhead
      exact ⟨b, l1, l2, hhead, hdecomp, hstrict, hmax⟩

/-- Witness for C3: on the two-backend fixture the strategy picks the
unlimited backend, which heads the availability order. -/
theorem claim3_witness :
    ∃ b l1 l2, leastSpaceSelectBucket [cexUnlimited, cexSmall] "k" 1 = some b ∧
      [cexUnlimited, cexSmall] = l1 ++ b :: l2 ∧
      (∀ c ∈ l1, c.getAvailableSpace < b.getAvailableSpace) ∧
      (∀ c ∈ [cexUnlimited, cexSmall],
        c.getAvailableSpace ≤ b.getAvailableSpace) :=
  claim3_least_space_first_max [cexUnlimited, cexSmall] "k" 1 (by decide)

/-- The least-space strategy picks one of its candidates. -/
theorem leastSpaceSelectBucket_mem (l : List BucketInfo) (k : String) (s : Int)
    (b : BucketInfo) (h : leastSpaceSelectBucket l k s = some b) : b ∈ l := by
  rcases l with _ | ⟨x, xs⟩
  · simp [leastSpaceSelectBucket] at h
  · obtain ⟨l1, l2, hdecomp, -, -⟩ := insertionSort_head_first_max (x :: xs) b h
    rw [hdecomp]
    simp

/-- A selection of `selectOnce` comes from the capacity-filtered candidate
list. -/
theorem selectOnce_mem_filtered (strategy : Strategy)
    (hstrat : ∀ l k s b, strategy l k s = some b → b ∈ l)
    (mgr : List BucketInfo) (k : String) (s : Int) (b : BucketInfo)
    (h : selectOnce strategy mgr k s = some b) :
    b ∈ getAvailableBuckets mgr ∧ s ≤ b.getAvailableSpace := by
  unfold selectOnce at h
  rcases havail : getAvailableBuckets mgr with _ | ⟨a, as⟩
  · rw [havail] at h; simp at h
  · rw [havail] at h
    simp only at h
    rcases hfilt : (a :: as).filter (fun c => decide (s ≤ c.getAvailableSpace))
      with _ | ⟨f, fs⟩
    · rw [hfilt] at h; simp at h
    · rw [hfilt] at h
      simp only at h
      have hmem : b ∈ (a :: as).filter (fun c => decide (s ≤ c.getAvailableSpace)) := by
        rw [hfilt]; exact hstrat _ k s b h
      have hmf := List.mem_filter.1 hmem
      exact ⟨hmf.1, by simpa using hmf.2⟩

/-- When every available candidate is short of space, `selectOnce` fails. -/
theorem selectOnce_none_of_short (strategy : Strategy)
    (mgr : List BucketInfo) (k : String) (s : Int)
    (hshort : ∀ b ∈ getAvailableBuckets mgr, b.getAvailableSpace < s) :
    selectOnce strategy mgr k s = none := by
  unfold selectOnce
  rcases havail : getAvailableBuckets mgr with _ | ⟨a, as⟩
  · rfl
  · simp only
    have hfilt : (a :: as).filter (fun c => decide (s ≤ c.getAvailableSpace)) = [] := by
      rw [List.filter_eq_nil_iff]
      intro c hc
      have := hshort c (by rw [havail]; exact hc)
      simpa using not_le.2 this
    rw [hfilt]

/-- Claim C2: the balancer drops every candidate short of space before
invoking the strategy, so any selected backend has available space at
least the payload size; and when no available candidate has enough space
the pick fails, `handlePutObject` answers 507 `InsufficientStorage`, and
the state — in particular the mapping table — is unchanged (the mapping is
only created after a successful pick). -/
theorem claim2_balancer_capacity_filter (strategy : Strategy)
    (hstrat : ∀ l k s b, strategy l k s = some b → b ∈ l)
    (st : GatewayState) (bucketName key : String) (contentLength : Int)
    (uploadOk : Bool) (vb : BucketInfo)
    (hvb : getBucket st bucketName = some vb) (hvirt : vb.config.virtual = true)
    (hmiss : getVirtualBucketMapping st bucketName key = none)
    (hCL : 0 ≤ contentLength)
    (hshort : ∀ b ∈ getAvailableBuckets st.buckets,
      b.getAvailableSpace < contentLength) :
    (∀ mgr k s b, selectOnce strategy mgr k s = some b →
      s ≤ b.getAvailableSpace ∧ b ∈ getAvailableBuckets mgr) ∧
    selectOnce strategy st.buckets key contentLength = none ∧
    handlePutObject st bucketName key contentLength strategy uploadOk =
      ⟨⟨507, some "InsufficientStorage"⟩, st, none⟩ := by
  have hsel := selectOnce_none_of_short strategy st.buckets key contentLength hshort
  refine ⟨?_, hsel, ?_⟩
  · intro mgr k s b h
    have := selectOnce_mem_filtered strategy hstrat mgr k s b h
    exact ⟨this.2, this.1⟩
  · have h507 : errReply "InsufficientStorage" = ⟨507, some "InsufficientStorage"⟩ := by
      decide
    simp [handlePutObject, hvb, hvirt, hmiss, hsel, not_lt.2 hCL, h507]

/-- Witness for C2: one available backend with 10 bytes free cannot take a
100-byte PUT; the request gets 507 and the state is untouched. -/
theorem claim2_witness :
    (∀ mgr k s b, selectOnce leastSpaceSelectBucket mgr k s = some b →
      s ≤ b.getAvailableSpace ∧ b ∈ getAvailableBuckets mgr) ∧
    selectOnce leastSpaceSelectBucket w2State.buckets "file.bin" 100 = none ∧
    handlePutObject w2State "v" "file.bin" 100 leastSpaceSelectBucket true =
      ⟨⟨507, some "InsufficientStorage"⟩, w2State, none⟩ :=
  claim2_balancer_capacity_filter leastSpaceSelectBucket
    leastSpaceSelectBucket_mem w2State "v" "file.bin" 100 true
    (mkVirtualBucket "v") (by decide) (by decide) (by decide) (by decide)
    (by decide)

/-- `find?` only depends on the predicate's values. -/
theorem find?_congr_fun {α : Type} {p q : α → Bool} (h : ∀ a, p a = q a) :
    ∀ l : List α, l.find? p = l.find? q
  | [] => rfl
  | a :: l => by
    rw [List.find?_cons, List.find?_cons, h a, find?_congr_fun h l]

/-- `RecordOperation` touches only the counters, the availability and the
limit flag. -/
theorem recordOperation_skeleton (b : BucketInfo) (cat : OperationCategory) :
    (b.recordOperation cat).1.config = b.config ∧
      (b.recordOperation cat).1.usedSize = b.usedSize ∧
      (b.recordOperation cat).1.lastChecked = b.lastChecked := by
  cases cat <;> simp only [BucketInfo.recordOperation] <;> split_ifs <;> simp

/-- A successful `GetBucket` returns a backend carrying the looked-up
name. -/
theorem getBucket_name (st : GatewayState) (v : String) (b : BucketInfo)
    (h : getBucket st v = some b) : b.config.name = v := by
  have := List.find?_some h
  simpa using this

/-- `GetBucket` after a config-preserving per-backend update. -/
theorem getBucket_updateBucket (st : GatewayState) (n : String)
    (f : BucketInfo → BucketInfo) (hf : ∀ b, (f b).config = b.config)
    (v : String) :
    getBucket (updateBucket st n f) v =
      (getBucket st v).map fun b => if b.config.name = n then f b else b := by
  unfold getBucket updateBucket
  rw [List.find?_map]
  refine congrArg _ (find?_congr_fun ?_ st.buckets)
  intro b
  by_cases hb : b.config.name = n <;> simp [Function.comp, hb, hf]

/-- Backend updates leave the three persistent tables untouched. -/
theorem updateBucket_tables (st : GatewayState) (n : String)
    (f : BucketInfo → BucketInfo) :
    (updateBucket st n f).mappings = st.mappings ∧
      (updateBucket st n f).objects = st.objects ∧
      (updateBucket st n f).sessions = st.sessions := by
  simp [updateBucket]

/-- Claim C10: a PUT whose key is already mapped uploads to the mapped
backend with no capacity check — the space filter lives in the balancer,
which the mapping-hit path never calls — so overwriting with a payload
larger than the backend's free space succeeds (HTTP 200) and pushes the
backend's used size past `max-bytes`. -/
theorem claim10_put_overwrite_no_capacity_check (st : GatewayState)
    (bucketName key : String) (contentLength : Int) (strategy : Strategy)
    (vb : BucketInfo) (m : Mapping) (tb : BucketInfo)
    (hvb : getBucket st bucketName = some vb) (hvirt : vb.config.virtual = true)
    (hmap : getVirtualBucketMapping st bucketName key = some m)
    (htb : getBucket st m.realBucketName = some tb)
    (hCL : 0 ≤ contentLength)
    (hover : tb.getAvailableSpace < contentLength)
    (hmax : tb.config.maxSizeBytes ≠ 0) :
    (handlePutObject st bucketName key contentLength strategy true).uploadedTo =
      some tb.config.name ∧
    (handlePutObject st bucketName key contentLength strategy true).reply =
      okReply 200 ∧
    ∃ tb', getBucket
        (handlePutObject st bucketName key contentLength strategy true).st
        tb.config.name = some tb' ∧
      tb'.usedSize = tb.usedSize + contentLength ∧
      tb'.config.maxSizeBytes < tb'.usedSize := by
  have hname : tb.config.name = m.realBucketName := getBucket_name st _ tb htb
  have hput : handlePutObject st bucketName key contentLength strategy true =
      putUpload st tb.config.name key contentLength true := by
    simp [handlePutObject, hvb, hvirt, hmap, htb, not_lt.2 hCL]
  rw [hput]
  unfold putUpload
  simp only [if_pos rfl]
  refine ⟨rfl, rfl, ?_⟩
  set f1 : BucketInfo → BucketInfo := fun b => (b.recordOperation .typeA).1 with hf1
  set f2 : BucketInfo → BucketInfo :=
    fun b => { b with usedSize := b.usedSize + contentLength } with hf2
  have hconf1 : ∀ b, (f1 b).config = b.config :=
    fun b => (recordOperation_skeleton b .typeA).1
  have hconf2 : ∀ b, (f2 b).config = b.config := fun b => rfl
  have hlook : getBucket st tb.config.name = some tb := by rw [hname]; exact htb
  have h1 : getBucket (recordBackendOperationOn st tb.config.name .typeA)
      tb.config.name = some (f1 tb) := by
    unfold recordBackendOperationOn
    rw [getBucket_updateBucket st _ f1 hconf1, hlook]
    simp
  have h2 : getBucket (recordObject
      (recordBackendOperationOn st tb.config.name .typeA) key tb.config.name
      contentLength) tb.config.name = some (f1 tb) := by
    rw [← h1]
    unfold recordObject getBucket
    split_ifs <;> rfl
  have h3 : getBucket (updateBucket (recordObject
      (recordBackendOperationOn st tb.config.name .typeA) key tb.config.name
      contentLength) tb.config.name f2) tb.config.name = some (f2 (f1 tb)) := by
    rw [getBucket_updateBucket _ _ f2 hconf2, h2]
    simp [hconf1 tb]
  refine ⟨f2 (f1 tb), h3, ?_, ?_⟩
  · show (f1 tb).usedSize + contentLength = tb.usedSize + contentLength
    rw [(recordOperation_skeleton tb .typeA).2.1]
  · show (f2 (f1 tb)).config.maxSizeBytes < (f1 tb).usedSize + contentLength
    rw [hconf2, hconf1, (recordOperation_skeleton tb .typeA).2.1]
    have havail : tb.config.maxSizeBytes - tb.usedSize < contentLength := by
      unfold BucketInfo.getAvailableSpace at hover
      rwa [if_neg hmax] at hover
    omega

/-- Witness for C10: key `k` is mapped to a backend with 2 of 10 bytes
free; a 5-byte overwrite succeeds and leaves 13 bytes used. -/
theorem claim10_witness :
    (handlePutObject w10State "v" "k" 5 leastSpaceSelectBucket true).uploadedTo =
      some (mkRealBucket "b1" 10 8).config.name ∧
    (handlePutObject w10State "v" "k" 5 leastSpaceSelectBucket true).reply =
      okReply 200 ∧
    ∃ tb', getBucket
        (handlePutObject w10State "v" "k" 5 leastSpaceSelectBucket true).st
        (mkRealBucket "b1" 10 8).config.name = some tb' ∧
      tb'.usedSize = (mkRealBucket "b1" 10 8).usedSize + 5 ∧
      tb'.config.maxSizeBytes < tb'.usedSize :=
  claim10_put_overwrite_no_capacity_check w10State "v" "k" 5
    leastSpaceSelectBucket (mkVirtualBucket "v") ⟨"v", "k", "b1", "k"⟩
    (mkRealBucket "b1" 10 8) (by decide) (by decide) (by decide) (by decide)
    (by decide) (by decide) (by decide)

/-- Claim C1 fails on the code: after `PUT v/a`, `PUT v/b` and a copy of
`v/a` onto the already-mapped destination `v/b`, the mapping table holds
two rows for `(v, b)` — the copy handler creates its destination mapping
unconditionally and no unique constraint stops it, so the per-(virtual
bucket, key) uniqueness the claim asserts is violated. -/
theorem claim1_copy_breaks_mapping_uniqueness :
    (handlePutObject bugState "v" "a" 1 leastSpaceSelectBucket true).reply =
      okReply 200 ∧
    (handlePutObject (handlePutObject bugState "v" "a" 1
        leastSpaceSelectBucket true).st "v" "b" 1
        leastSpaceSelectBucket true).reply = okReply 200 ∧
    (handleCopyObject (handlePutObject (handlePutObject bugState "v" "a" 1
        leastSpaceSelectBucket true).st "v" "b" 1
        leastSpaceSelectBucket true).st "v" "b" "v" "a").1 = okReply 200 ∧
    ((handleCopyObject (handlePutObject (handlePutObject bugState "v" "a" 1
        leastSpaceSelectBucket true).st "v" "b" 1
        leastSpaceSelectBucket true).st "v" "b" "v" "a").2.mappings.countP
      fun m => decide (m.virtualBucketName = "v" ∧ m.objectKey = "b")) = 2 := by
  refine ⟨by decide, by decide, by decide, by decide⟩

/-- Counterexample to C7 as stated: DELETE does not always answer 204.
With a mapping that names a backend missing from the registry, the handler
answers `InternalError` (HTTP 500). -/
theorem claim7_counterexample :
    (handleDeleteObject c7State "v" "k").reply.status = 500 ∧
      (handleDeleteObject c7State "v" "k").reply ≠ okReply 204 := by
  refine ⟨by decide, by decide⟩

/-- After `DeleteVirtualBucketObjectMapping`, the lookup for the same pair
misses. -/
theorem getMapping_after_delete (st : GatewayState) (v k : String) :
    getVirtualBucketMapping (deleteVirtualBucketObjectMapping st v k) v k = none := by
  unfold getVirtualBucketMapping deleteVirtualBucketObjectMapping
  rw [List.find?_eq_none]
  intro x hx
  have hkeep := (List.mem_filter.1 hx).2
  simp only [Bool.not_eq_eq_eq_not, Bool.not_true, decide_eq_false_iff_not] at hkeep
  simpa using hkeep

/-- A DELETE whose mapping lookup misses answers 204 and leaves the state
alone, with no backend call. -/
theorem delete_on_missing (st : GatewayState) (v k : String) (vb : BucketInfo)
    (hvb : getBucket st v = some vb) (hvirt : vb.config.virtual = true)
    (hmiss : getVirtualBucketMapping st v k = none) :
    handleDeleteObject st v k = ⟨okReply 204, st, false⟩ := by
  simp [handleDeleteObject, hvb, hvirt, hmiss]

/-- Claim C7 (amended): DELETE of an object in a virtual bucket answers
204 whenever any mapping it finds names a registered backend (when the
mapped backend is missing from the registry it answers `InternalError`
instead, per the counterexample).  On a mapping miss it answers 204 at
once, touching nothing.  Otherwise it deletes the mapping rows first and
issues the backend DELETE — also removing the object record — exactly when
no remaining mapping references the same real object.  A second DELETE of
the same key again answers 204 and performs no backend call. -/
theorem claim7_delete_semantics (st : GatewayState) (bucketName key : String)
    (vb : BucketInfo) (r : DeleteResult)
    (hvb : getBucket st bucketName = some vb) (hvirt : vb.config.virtual = true)
    (hreal : ∀ m, getVirtualBucketMapping st bucketName key = some m →
      ∃ tb, getBucket st m.realBucketName = some tb)
    (hr : handleDeleteObject st bucketName key = r) :
    r.reply = okReply 204 ∧
    (getVirtualBucketMapping st bucketName key = none →
      r.st = st ∧ r.backendDeleteIssued = false) ∧
    (∀ m tb, getVirtualBucketMapping st bucketName key = some m →
      getBucket st m.realBucketName = some tb →
      r.st.mappings = (deleteVirtualBucketObjectMapping st bucketName key).mappings ∧
      (r.backendDeleteIssued = true ↔
        countMappingsToRealObject (deleteVirtualBucketObjectMapping st bucketName key)
          tb.config.name m.realObjectKey = 0) ∧
      (r.backendDeleteIssued = false → r.st.objects = st.objects) ∧
      (r.backendDeleteIssued = true →
        r.st.objects = st.objects.filter
          fun o => !decide (o.key = m.realObjectKey))) ∧
    (handleDeleteObject r.st bucketName key).reply = okReply 204 ∧
    (handleDeleteObject r.st bucketName key).backendDeleteIssued = false ∧
    (handleDeleteObject r.st bucketName key).st = r.st := by
  rcases hmap : getVirtualBucketMapping st bucketName key with _ | m
  · have hfirst : handleDeleteObject st bucketName key = ⟨okReply 204, st, false⟩ :=
      delete_on_missing st bucketName key vb hvb hvirt hmap
    rw [hfirst] at hr
    subst hr
    refine ⟨rfl, fun _ => ⟨rfl, rfl⟩, ?_, ?_⟩
    · intro m tb hm
      exact Option.noConfusion hm
    · have := delete_on_missing st bucketName key vb hvb hvirt hmap
      rw [this]
      exact ⟨rfl, rfl, rfl⟩
  · obtain ⟨tb, htb⟩ := hreal m hmap
    have hfirst : handleDeleteObject st bucketName key =
        (if countMappingsToRealObject
            (deleteVirtualBucketObjectMapping st bucketName key)
            tb.config.name m.realObjectKey = 0 then
          ⟨okReply 204,
            deleteObjectRecord
              (recordBackendOperationOn
                (deleteVirtualBucketObjectMapping st bucketName key)
                tb.config.name .typeA) m.realObjectKey, true⟩
        else
          ⟨okReply 204, deleteVirtualBucketObjectMapping st bucketName key,
            false⟩) := by
      simp [handleDeleteObject, hvb, hvirt, hmap, htb]
    by_cases hcount : countMappingsToRealObject
        (deleteVirtualBucketObjectMapping st bucketName key)
        tb.config.name m.realObjectKey = 0
    · rw [if_pos hcount] at hfirst
      rw [hfirst] at hr
      subst hr
      have hmaps : (deleteObjectRecord
          (recordBackendOperationOn
            (deleteVirtualBucketObjectMapping st bucketName key)
            tb.config.name .typeA) m.realObjectKey).mappings =
          (deleteVirtualBucketObjectMapping st bucketName key).mappings := by
        simp [deleteObjectRecord, recordBackendOperationOn, updateBucket,
          deleteVirtualBucketObjectMapping]
      have hbuckets : getBucket (deleteObjectRecord
          (recordBackendOperationOn
            (deleteVirtualBucketObjectMapping st bucketName key)
            tb.config.name .typeA) m.realObjectKey) bucketName =
          (getBucket st bucketName).map
            fun b => if b.config.name = tb.config.name
              then (b.recordOperation .typeA).1 else b := by
        have h1 : getBucket (deleteObjectRecord
            (recordBackendOperationOn
              (deleteVirtualBucketObjectMapping st bucketName key)
              tb.config.name .typeA) m.realObjectKey) bucketName =
            getBucket (recordBackendOperationOn
              (deleteVirtualBucketObjectMapping st bucketName key)
              tb.config.name .typeA) bucketName := rfl
        rw [h1]
        unfold recordBackendOperationOn
        rw [getBucket_updateBucket _ _ _
          (fun b => (recordOperation_skeleton b .typeA).1)]
        rfl
      refine ⟨rfl, ?_, ?_, ?_⟩
      · intro hnone; exact Option.noConfusion hnone
      · intro m' tb' hm' htb'
        injection hm' with hmm
        subst hmm
        rw [htb] at htb'
        injection htb' with htt
        subst htt
        refine ⟨hmaps, by simp [hcount], by simp, fun _ => ?_⟩
        simp [deleteObjectRecord, recordBackendOperationOn, updateBucket,
          deleteVirtualBucketObjectMapping]
      · set st' := deleteObjectRecord
          (recordBackendOperationOn
            (deleteVirtualBucketObjectMapping st bucketName key)
            tb.config.name .typeA) m.realObjectKey with hst'
        have hvb' : getBucket st' bucketName =
            some (if vb.config.name = tb.config.name
              then (vb.recordOperation .typeA).1 else vb) := by
          rw [hbuckets, hvb]; rfl
        have hvirt' : (if vb.config.name = tb.config.name
            then (vb.recordOperation .typeA).1 else vb).config.virtual = true := by
          split_ifs with h
          · rw [(recordOperation_skeleton vb .typeA).1]; exact hvirt
          · exact hvirt
        have hmiss' : getVirtualBucketMapping st' bucketName key = none := by
          have : st'.mappings =
              (deleteVirtualBucketObjectMapping st bucketName key).mappings := hmaps
          unfold getVirtualBucketMapping
          rw [this]
          exact getMapping_after_delete st bucketName key
        have := delete_on_missing st' bucketName key _ hvb' hvirt' hmiss'
        rw [this]
        exact ⟨rfl, rfl, rfl⟩
    · rw [if_neg hcount] at hfirst
      rw [hfirst] at hr
      subst hr
      refine ⟨rfl, ?_, ?_, ?_⟩
      · intro hnone; exact Option.noConfusion hnone
      · intro m' tb' hm' htb'
        injection hm' with hmm
        subst hmm
        rw [htb] at htb'
        injection htb' with htt
        subst htt
        refine ⟨rfl, by simp [hcount], fun _ => rfl, by simp⟩
      · have hvb' : getBucket (deleteVirtualBucketObjectMapping st bucketName key)
            bucketName = some vb := hvb
        have hmiss' : getVirtualBucketMapping
            (deleteVirtualBucketObjectMapping st bucketName key) bucketName key =
            none := getMapping_after_delete st bucketName key
        have := delete_on_missing _ bucketName key vb hvb' hvirt hmiss'
        rw [this]
        exact ⟨rfl, rfl, rfl⟩

/-- Witness for C7: deleting the only mapping of `k` answers 204 and
issues the backend DELETE; a second DELETE answers 204 without touching
the backend. -/
theorem claim7_witness :
    (handleDeleteObject w7State "v" "k").reply = okReply 204 ∧
    (getVirtualBucketMapping w7State "v" "k" = none →
      (handleDeleteObject w7State "v" "k").st = w7State ∧
      (handleDeleteObject w7State "v" "k").backendDeleteIssued = false) ∧
    (∀ m tb, getVirtualBucketMapping w7State "v" "k" = some m →
      getBucket w7State m.realBucketName = some tb →
      (handleDeleteObject w7State "v" "k").st.mappings =
        (deleteVirtualBucketObjectMapping w7State "v" "k").mappings ∧
      ((handleDeleteObject w7State "v" "k").backendDeleteIssued = true ↔
        countMappingsToRealObject (deleteVirtualBucketObjectMapping w7State "v" "k")
          tb.config.name m.realObjectKey = 0) ∧
      ((handleDeleteObject w7State "v" "k").backendDeleteIssued = false →
        (handleDeleteObject w7State "v" "k").st.objects = w7State.objects) ∧
      ((handleDeleteObject w7State "v" "k").backendDeleteIssued = true →
        (handleDeleteObject w7State "v" "k").st.objects = w7State.objects.filter
          fun o => !decide (o.key = m.realObjectKey))) ∧
    (handleDeleteObject (handleDeleteObject w7State "v" "k").st "v" "k").reply =
      okReply 204 ∧
    (handleDeleteObject
      (handleDeleteObject w7State "v" "k").st "v" "k").backendDeleteIssued =
      false ∧
    (handleDeleteObject (handleDeleteObject w7State "v" "k").st "v" "k").st =
      (handleDeleteObject w7State "v" "k").st :=
  claim7_delete_semantics w7State "v" "k" (mkVirtualBucket "v")
    (handleDeleteObject w7State "v" "k") (by decide) (by decide)
    (by
      intro m hm
      have heval : getVirtualBucketMapping w7State "v" "k" =
          some ⟨"v", "k", "b1", "k"⟩ := by decide
      rw [heval] at hm
      injection hm with hmm
      subst hmm
      exact ⟨mkRealBucket "b1" 0 1, by decide⟩)
    rfl

/-- Claim C8: PUT-copy onto a fresh destination creates a destination
mapping aliasing the source's real bucket and real key, transfers no data
(the whole backend table, used bytes included, is unchanged — no backend
PUT is even modelled in the copy path); since the real object then has two
mappings, deleting the source removes only the source mapping with no
backend DELETE, and a GET of the destination still resolves to the same
real object. -/
theorem claim8_copy_zero_cost (st : GatewayState)
    (destBucket destKey sourceBucket sourceKey : String)
    (db sb : BucketInfo) (sm : Mapping) (tb : BucketInfo)
    (hdb : getBucket st destBucket = some db) (hdvirt : db.config.virtual = true)
    (hsb : getBucket st sourceBucket = some sb)
    (hsvirt : sb.config.virtual = true)
    (hsm : getVirtualBucketMapping st sourceBucket sourceKey = some sm)
    (hfresh : getVirtualBucketMapping st destBucket destKey = none)
    (htb : getBucket st sm.realBucketName = some tb) :
    (handleCopyObject st destBucket destKey sourceBucket sourceKey).1 =
      okReply 200 ∧
    (handleCopyObject st destBucket destKey sourceBucket sourceKey).2.buckets =
      st.buckets ∧
    getVirtualBucketMapping
      (handleCopyObject st destBucket destKey sourceBucket sourceKey).2
      destBucket destKey =
      some ⟨destBucket, destKey, sm.realBucketName, sm.realObjectKey⟩ ∧
    (handleDeleteObject
      (handleCopyObject st destBucket destKey sourceBucket sourceKey).2
      sourceBucket sourceKey).reply = okReply 204 ∧
    (handleDeleteObject
      (handleCopyObject st destBucket destKey sourceBucket sourceKey).2
      sourceBucket sourceKey).backendDeleteIssued = false ∧
    resolveGetObject
      (handleDeleteObject
        (handleCopyObject st destBucket destKey sourceBucket sourceKey).2
        sourceBucket sourceKey).st destBucket destKey =
      .ok (tb.config.name, sm.realObjectKey) := by
  have htbname : tb.config.name = sm.realBucketName := getBucket_name st _ tb htb
  have hne : ¬(destBucket = sourceBucket ∧ destKey = sourceKey) := by
    rintro ⟨rfl, rfl⟩
    rw [hsm] at hfresh
    exact Option.noConfusion hfresh
  have hcopy : handleCopyObject st destBucket destKey sourceBucket sourceKey =
      (okReply 200, createVirtualBucketMapping st destBucket destKey
        sm.realBucketName sm.realObjectKey) := by
    simp [handleCopyObject, hdb, hsb, hsm, hdvirt]
  rw [hcopy]
  set newm : Mapping := ⟨destBucket, destKey, sm.realBucketName, sm.realObjectKey⟩
    with hnewm
  have hdestPred : (fun m : Mapping =>
      decide (m.virtualBucketName = destBucket ∧ m.objectKey = destKey)) newm =
      true := by simp [hnewm]
  have hmapget : getVirtualBucketMapping (createVirtualBucketMapping st destBucket
      destKey sm.realBucketName sm.realObjectKey) destBucket destKey =
      some newm := by
    have hfresh' := hfresh
    simp only [getVirtualBucketMapping, createVirtualBucketMapping] at hfresh' ⊢
    rw [List.find?_append, hfresh', Option.none_or]
    simp [hnewm]
  have hsrcmapget : getVirtualBucketMapping (createVirtualBucketMapping st
      destBucket destKey sm.realBucketName sm.realObjectKey) sourceBucket
      sourceKey = some sm := by
    have hsm' := hsm
    simp only [getVirtualBucketMapping, createVirtualBucketMapping] at hsm' ⊢
    rw [List.find?_append, hsm']
    rfl
  set st1 := createVirtualBucketMapping st destBucket destKey
    sm.realBucketName sm.realObjectKey with hst1
  have hsb1 : getBucket st1 sourceBucket = some sb := hsb
  have htb1 : getBucket st1 sm.realBucketName = some tb := htb
  set st2 := deleteVirtualBucketObjectMapping st1 sourceBucket sourceKey with hst2
  have hkeep : newm ∈ st2.mappings := by
    rw [hst2]
    unfold deleteVirtualBucketObjectMapping
    simp only
    rw [hst1]
    unfold createVirtualBucketMapping
    simp only
    rw [List.filter_append, List.mem_append]
    right
    simp only [List.filter_cons]
    rw [if_pos]
    · exact List.mem_singleton.2 rfl
    · simp [hnewm, hne]
  have hcount : countMappingsToRealObject st2 tb.config.name sm.realObjectKey ≠ 0 := by
    unfold countMappingsToRealObject
    rw [Ne, List.countP_eq_zero]
    intro hall
    have := hall newm hkeep
    simp [hnewm, htbname] at this
  have hdel : handleDeleteObject st1 sourceBucket sourceKey =
      ⟨okReply 204, st2, false⟩ := by
    simp [handleDeleteObject, hsb1, hsvirt, hsrcmapget, htb1, hst2, hcount]
  refine ⟨rfl, rfl, hmapget, ?_, ?_, ?_⟩
  · rw [hdel]
  · rw [hdel]
  · rw [hdel]
    have hdb2 : getBucket st2 destBucket = some db := hdb
    have hmap2 : getVirtualBucketMapping st2 destBucket destKey = some newm := by
      rw [hst2, hst1]
      simp only [getVirtualBucketMapping, deleteVirtualBucketObjectMapping,
        createVirtualBucketMapping]
      rw [List.filter_append, List.find?_append]
      have hnone : (st.mappings.filter fun m =>
          !decide (m.virtualBucketName = sourceBucket ∧ m.objectKey = sourceKey)).find?
          (fun m => decide (m.virtualBucketName = destBucket ∧ m.objectKey = destKey)) =
          none := by
        rw [List.find?_eq_none]
        intro x hx
        have hxmem := (List.mem_filter.1 hx).1
        have := List.find?_eq_none.1 hfresh x hxmem
        exact this
      rw [hnone, Option.none_or]
      simp [hnewm, hne]
    have htb2 : getBucket st2 newm.realBucketName = some tb := htb
    simp [resolveGetObject, hdb2, hdvirt, hmap2, htb2]

/-- Witness for C8: copying `v/src` to the fresh key `v/dst`, then
deleting `v/src`, leaves GET of `v/dst` resolving to the original real
object `b1/src`, with no backend DELETE and the backend table unchanged by
the copy. -/
theorem claim8_witness :
    (handleCopyObject w8State "v" "dst" "v" "src").1 = okReply 200 ∧
    (handleCopyObject w8State "v" "dst" "v" "src").2.buckets =
      w8State.buckets ∧
    getVirtualBucketMapping (handleCopyObject w8State "v" "dst" "v" "src").2
      "v" "dst" = some ⟨"v", "dst", "b1", "src"⟩ ∧
    (handleDeleteObject (handleCopyObject w8State "v" "dst" "v" "src").2
      "v" "src").reply = okReply 204 ∧
    (handleDeleteObject (handleCopyObject w8State "v" "dst" "v" "src").2
      "v" "src").backendDeleteIssued = false ∧
    resolveGetObject
      (handleDeleteObject (handleCopyObject w8State "v" "dst" "v" "src").2
        "v" "src").st "v" "dst" =
      .ok ((mkRealBucket "b1" 0 5).config.name, "src") :=
  claim8_copy_zero_cost w8State "v" "dst" "v" "src" (mkVirtualBucket "v")
    (mkVirtualBucket "v") ⟨"v", "src", "b1", "src"⟩ (mkRealBucket "b1" 0 5)
    (by decide) (by decide) (by decide) (by decide) (by decide) (by decide)
    (by decide)

/-- Counterexample to C6 as stated: on a capacity overrun the part upload
answers `EntityTooLarge` with HTTP 400 — `sendS3Error` has no
`EntityTooLarge` case, so the code falls to the default status, not 413 —
and when the backend abort call fails the session is left `pending`, not
`aborted`. -/
theorem claim6_counterexample :
    (handleUploadPart w6State "v" "big" "u1" 6 leastSpaceSelectBucket
      false true).reply.errorCode = some "EntityTooLarge" ∧
    (handleUploadPart w6State "v" "big" "u1" 6 leastSpaceSelectBucket
      false true).reply.status = 400 ∧
    (handleUploadPart w6State "v" "big" "u1" 6 leastSpaceSelectBucket
      false true).reply.status ≠ 413 ∧
    ((handleUploadPart w6State "v" "big" "u1" 6 leastSpaceSelectBucket
      false true).st.sessions.find? fun s => s.uploadID = "u1").map
        UploadSession.status = some "pending" := by
  refine ⟨by decide, by decide, by decide, by decide⟩

/-- Looking up a session after `UpdateUploadSession` yields the updated
row. -/
theorem find?_updateUploadSession (st : GatewayState) (uploadID : String)
    (cp : Int) (status : String) :
    (updateUploadSession st uploadID cp status).sessions.find?
      (fun s => s.uploadID = uploadID) =
      (st.sessions.find? (fun s => s.uploadID = uploadID)).map
        fun s => if s.uploadID = uploadID
          then { s with completedParts := cp, status := status } else s := by
  unfold updateUploadSession
  simp only
  rw [List.find?_map]
  refine congrArg _ (find?_congr_fun ?_ st.sessions)
  intro s
  by_cases hs : s.uploadID = uploadID <;> simp [Function.comp, hs]

/-- Claim C6 (amended): when the projected total (session size plus the
part's content length) exceeds the target backend's available space, the
gateway issues a backend `AbortMultipartUpload` and answers the S3 error
`EntityTooLarge` — which `sendS3Error` maps to HTTP 400, not 413 — without
uploading the part; the session is marked `aborted` when the backend abort
call succeeds, and is left untouched when it fails. -/
theorem claim6_upload_part_overrun (st : GatewayState)
    (bucketName key uploadID : String) (contentLength : Int)
    (strategy : Strategy) (abortOk uploadOk : Bool) (vb : BucketInfo)
    (m : Mapping) (tb : BucketInfo)
    (hvb : getBucket st bucketName = some vb) (hvirt : vb.config.virtual = true)
    (hmap : getVirtualBucketMapping st bucketName key = some m)
    (htb : getBucket st m.realBucketName = some tb)
    (hCL : 0 ≤ contentLength)
    (hover : tb.getAvailableSpace <
      (getUploadSessionSize st uploadID).getD 0 + contentLength) :
    (handleUploadPart st bucketName key uploadID contentLength strategy
      abortOk uploadOk).reply = errReply "EntityTooLarge" ∧
    (handleUploadPart st bucketName key uploadID contentLength strategy
      abortOk uploadOk).reply.status = 400 ∧
    (handleUploadPart st bucketName key uploadID contentLength strategy
      abortOk uploadOk).backendAbortIssued = true ∧
    (handleUploadPart st bucketName key uploadID contentLength strategy
      abortOk uploadOk).partUploaded = false ∧
    (abortOk = true → ∀ s0,
      st.sessions.find? (fun s => s.uploadID = uploadID) = some s0 →
      (handleUploadPart st bucketName key uploadID contentLength strategy
        abortOk uploadOk).st.sessions.find? (fun s => s.uploadID = uploadID) =
        some { s0 with completedParts := 0, status := "aborted" }) ∧
    (abortOk = false →
      (handleUploadPart st bucketName key uploadID contentLength strategy
        abortOk uploadOk).st.sessions = st.sessions) := by
  have hrun : handleUploadPart st bucketName key uploadID contentLength strategy
      abortOk uploadOk =
      uploadPartResolved st tb key uploadID contentLength abortOk uploadOk := by
    simp [handleUploadPart, hvb, hvirt, hmap, htb, not_lt.2 hCL]
  have hsess1 : getUploadSessionSize
      (recordBackendOperationOn st tb.config.name .typeA) uploadID =
      getUploadSessionSize st uploadID := rfl
  have hres : uploadPartResolved st tb key uploadID contentLength abortOk
      uploadOk =
      ⟨errReply "EntityTooLarge",
        abortMultipartUploadInternal
          (recordBackendOperationOn st tb.config.name .typeA)
          tb.config.name key uploadID abortOk, true, false⟩ := by
    simp only [uploadPartResolved]
    rw [hsess1, if_pos hover]
  rw [hrun, hres]
  refine ⟨rfl, ?_, rfl, rfl, ?_, ?_⟩
  · show (errReply "EntityTooLarge").status = 400
    decide
  · intro habort s0 hs0
    subst habort
    have huid : s0.uploadID = uploadID := by
      have := List.find?_some hs0
      simpa using this
    unfold abortMultipartUploadInternal
    rw [if_pos rfl]
    simp only
    rw [find?_updateUploadSession]
    have hsame : (recordBackendOperationOn
        (recordBackendOperationOn st tb.config.name .typeA)
        tb.config.name .typeA).sessions = st.sessions := rfl
    rw [show ((recordBackendOperationOn
        (recordBackendOperationOn st tb.config.name .typeA)
        tb.config.name .typeA).sessions.find? fun s => s.uploadID = uploadID) =
        (st.sessions.find? fun s => s.uploadID = uploadID) from rfl]
    rw [hs0]
    simp [huid]
  · intro habort
    subst habort
    rfl

/-- Witness for C6 (amended): with the abort call succeeding, the overrun
part gets `EntityTooLarge` / 400, the backend abort is issued, the part is
not uploaded, and the session row flips to `aborted`. -/
theorem claim6_witness :
    (handleUploadPart w6State "v" "big" "u1" 6 leastSpaceSelectBucket
      true true).reply = errReply "EntityTooLarge" ∧
    (handleUploadPart w6State "v" "big" "u1" 6 leastSpaceSelectBucket
      true true).reply.status = 400 ∧
    (handleUploadPart w6State "v" "big" "u1" 6 leastSpaceSelectBucket
      true true).backendAbortIssued = true ∧
    (handleUploadPart w6State "v" "big" "u1" 6 leastSpaceSelectBucket
      true true).partUploaded = false ∧
    (true = true → ∀ s0,
      w6State.sessions.find? (fun s => s.uploadID = "u1") = some s0 →
      (handleUploadPart w6State "v" "big" "u1" 6 leastSpaceSelectBucket
        true true).st.sessions.find? (fun s => s.uploadID = "u1") =
        some { s0 with completedParts := 0, status := "aborted" }) ∧
    (true = false →
      (handleUploadPart w6State "v" "big" "u1" 6 leastSpaceSelectBucket
        true true).st.sessions = w6State.sessions) :=
  claim6_upload_part_overrun w6State "v" "big" "u1" 6 leastSpaceSelectBucket
    true true (mkVirtualBucket "v") ⟨"v", "big", "b1", "big"⟩
    (mkRealBucket "b1" 10 0) (by decide) (by decide) (by decide) (by decide)
    (by decide) (by decide)

/-- On a sorted node list, a successful `find?` for the first node at or
above `h` returns the least such node. -/
theorem find?_ge_sorted_min :
    ∀ {ns : List Nat}, ns.Sorted (fun a b => a ≤ b) → ∀ {h t : Nat},
      ns.find? (fun n => decide (h ≤ n)) = some t →
      h ≤ t ∧ t ∈ ns ∧ ∀ n ∈ ns, h ≤ n → t ≤ n := by
  intro ns
  induction ns with
  | nil => intro _ h t hf; cases hf
  | cons x xs ih =>
    intro hs h t hf
    have hs' := List.sorted_cons.1 hs
    by_cases hx : h ≤ x
    · rw [List.find?_cons_of_pos _ (by simpa using hx)] at hf
      injection hf with ht
      subst ht
      refine ⟨hx, List.mem_cons_self _ _, ?_⟩
      intro n hn _
      rcases List.mem_cons.1 hn with rfl | hn
      · exact le_refl _
      · exact hs'.1 n hn
    · rw [List.find?_cons_of_neg _ (by simpa using hx)] at hf
      obtain ⟨h1, h2, h3⟩ := ih hs'.2 hf
      refine ⟨h1, List.mem_cons_of_mem _ h2, ?_⟩
      intro n hn hhn
      rcases List.mem_cons.1 hn with rfl | hn
      · exact absurd hhn hx
      · exact h3 n hn hhn

/-- On a sorted node list, the least node at or above `h` is what `find?`
returns. -/
theorem find?_ge_eq_some :
    ∀ {ns : List Nat}, ns.Sorted (fun a b => a ≤ b) → ∀ {h s : Nat},
      s ∈ ns → h ≤ s → (∀ n ∈ ns, h ≤ n → s ≤ n) →
      ns.find? (fun n => decide (h ≤ n)) = some s := by
  intro ns
  induction ns with
  | nil => intro _ h s hmem; cases hmem
  | cons x xs ih =>
    intro hs h s hmem hle hmin
    have hs' := List.sorted_cons.1 hs
    by_cases hx : h ≤ x
    · rw [List.find?_cons_of_pos _ (by simpa using hx)]
      have hsx : s ≤ x := hmin x (List.mem_cons_self _ _) hx
      have hxs : x ≤ s := by
        rcases List.mem_cons.1 hmem with rfl | hmem
        · exact le_refl _
        · exact hs'.1 s hmem
      rw [le_antisymm hsx hxs]
    · rw [List.find?_cons_of_neg _ (by simpa using hx)]
      have hmem' : s ∈ xs := by
        rcases List.mem_cons.1 hmem with rfl | hmem
        · exact absurd hle hx
        · exact hmem
      exact ih hs'.2 hmem' hle fun n hn => hmin n (List.mem_cons_of_mem _ hn)

/-- On a sorted node list, the minimum is the head. -/
theorem head?_sorted_min {ns : List Nat} (hs : ns.Sorted (fun a b => a ≤ b))
    {s : Nat} (hmem : s ∈ ns) (hmin : ∀ n ∈ ns, s ≤ n) : ns.head? = some s := by
  rcases ns with _ | ⟨x, xs⟩
  · cases hmem
  · have hs' := List.sorted_cons.1 hs
    have hsx : s ≤ x := hmin x (List.mem_cons_self _ _)
    have hxs : x ≤ s := by
      rcases List.mem_cons.1 hmem with rfl | hmem
      · exact le_refl _
      · exact hs'.1 s hmem
    rw [show (x :: xs).head? = some x from rfl, le_antisymm hxs hsx]

/-- The node picked by `chooseNode` on a sorted list is the least node at
or above the key hash, or — when every node hashes below the key — the
least node overall (the wrap-around). -/
theorem chooseNode_spec {ns : List Nat} (hs : ns.Sorted (fun a b => a ≤ b))
    {h s : Nat} (hc : chooseNode ns h = some s) :
    s ∈ ns ∧ ((h ≤ s ∧ ∀ n ∈ ns, h ≤ n → s ≤ n) ∨
      ((∀ n ∈ ns, n < h) ∧ ∀ n ∈ ns, s ≤ n)) := by
  unfold chooseNode at hc
  rcases hf : ns.find? (fun n => decide (h ≤ n)) with _ | t
  · rw [hf] at hc
    simp only at hc
    have hall : ∀ n ∈ ns, n < h := by
      intro n hn
      have := List.find?_eq_none.1 hf n hn
      simpa using this
    rcases ns with _ | ⟨x, xs⟩
    · cases hc
    · injection hc with hxs
      subst hxs
      have hs' := List.sorted_cons.1 hs
      refine ⟨List.mem_cons_self _ _, Or.inr ⟨hall, ?_⟩⟩
      intro n hn
      rcases List.mem_cons.1 hn with rfl | hn
      · exact le_refl _
      · exact hs'.1 n hn
  · rw [hf] at hc
    injection hc with hts
    subst hts
    obtain ⟨h1, h2, h3⟩ := find?_ge_sorted_min hs hf
    exact ⟨h2, Or.inl ⟨h1, h3⟩⟩

/-- The converse: a node satisfying the successor characterisation is what
`chooseNode` picks. -/
theorem chooseNode_intro {ns : List Nat} (hs : ns.Sorted (fun a b => a ≤ b))
    {h s : Nat} (hmem : s ∈ ns)
    (hcase : (h ≤ s ∧ ∀ n ∈ ns, h ≤ n → s ≤ n) ∨
      ((∀ n ∈ ns, n < h) ∧ ∀ n ∈ ns, s ≤ n)) :
    chooseNode ns h = some s := by
  unfold chooseNode
  rcases hcase with ⟨hle, hmin⟩ | ⟨hall, hmin⟩
  · rw [find?_ge_eq_some hs hmem hle hmin]
  · have hf : ns.find? (fun n => decide (h ≤ n)) = none := by
      rw [List.find?_eq_none]
      intro n hn
      simpa using not_le.2 (hall n hn)
    rw [hf]
    simp only
    exact head?_sorted_min hs hmem hmin

/-- Folding the map-insertion step over entries without a matching hash
leaves the accumulator alone. -/
theorem ringFind_foldl_no_match (h : Nat) :
    ∀ (l : List RingEntry) (acc : Option BucketInfo),
      (∀ e ∈ l, e.hash ≠ h) →
      l.foldl (fun acc e => if e.hash = h then some e.bucket else acc) acc = acc
  | [], _, _ => rfl
  | x :: xs, acc, hall => by
    rw [List.foldl_cons, if_neg (hall x (List.mem_cons_self _ _))]
    exact ringFind_foldl_no_match h xs acc fun e he =>
      hall e (List.mem_cons_of_mem _ he)

/-- With collision-free hashes, the ring map resolves an entry's hash to
that entry's backend. -/
theorem ringFind_spec :
    ∀ (entries : List RingEntry), (entries.map RingEntry.hash).Nodup →
      ∀ e ∈ entries, ringFind entries e.hash = some e.bucket
  | [], _, e, he => absurd he (List.not_mem_nil e)
  | x :: xs, hnd, e, he => by
    rw [List.map_cons] at hnd
    have hnd' := List.nodup_cons.1 hnd
    unfold ringFind
    rw [List.foldl_cons]
    rcases List.mem_cons.1 he with rfl | he'
    · rw [if_pos rfl]
      refine ringFind_foldl_no_match e.hash xs _ ?_
      intro e' he'
      intro hcontra
      refine hnd'.1 ?_
      rw [← hcontra]
      exact List.mem_map_of_mem RingEntry.hash he'
    · have hxe : x.hash ≠ e.hash := by
        intro hcontra
        refine hnd'.1 ?_
        rw [hcontra]
        exact List.mem_map_of_mem RingEntry.hash he'
      rw [if_neg hxe]
      exact ringFind_spec xs hnd'.2 e he'

/-- A hit in the ring map comes from some entry with that hash. -/
theorem ringFind_mem :
    ∀ (entries : List RingEntry) (acc : Option BucketInfo) (h : Nat)
      (b : BucketInfo),
      entries.foldl (fun acc e => if e.hash = h then some e.bucket else acc) acc =
        some b →
      (∃ e ∈ entries, e.hash = h ∧ e.bucket = b) ∨ acc = some b
  | [], acc, h, b, hf => Or.inr hf
  | x :: xs, acc, h, b, hf => by
    rw [List.foldl_cons] at hf
    rcases ringFind_mem xs _ h b hf with ⟨e, he, hh, hb⟩ | hacc
    · exact Or.inl ⟨e, List.mem_cons_of_mem _ he, hh, hb⟩
    · by_cases hx : x.hash = h
      · rw [if_pos hx] at hacc
        injection hacc with hxb
        exact Or.inl ⟨x, List.mem_cons_self _ _, hx, hxb⟩
      · rw [if_neg hx] at hacc
        exact Or.inr hacc

/-- An entry of the ring belongs to the block of its own backend, and that
backend is one of the candidates. -/
theorem ringEntries_owner (hash : String → Nat) (replicas : Nat)
    (buckets : List BucketInfo) (e : RingEntry)
    (he : e ∈ ringEntries hash replicas buckets) :
    e.bucket ∈ buckets ∧ e ∈ ringEntriesOf hash replicas e.bucket := by
  obtain ⟨a, ha, hea⟩ := List.mem_flatMap.1 he
  obtain ⟨i, _, hei⟩ := List.mem_map.1 hea
  have hb : e.bucket = a := by rw [← hei]
  rw [hb]
  exact ⟨ha, hea⟩

/-- `flatMap` preserves sublists. -/
theorem sublist_flatMap {α β : Type} (f : α → List β) :
    ∀ {l1 l2 : List α}, l1.Sublist l2 → (l1.flatMap f).Sublist (l2.flatMap f) := by
  intro l1 l2 h
  induction h with
  | slnil => exact List.Sublist.refl _
  | cons a h ih =>
    rw [List.flatMap_cons]
    exact ih.trans (List.sublist_append_right _ _)
  | cons₂ a h ih =>
    rw [List.flatMap_cons, List.flatMap_cons]
    exact ih.append_left _

/-- The sorted node list of the ring, characterised: sorted, and a
permutation of the entry hashes. -/
theorem ringNodes_sorted (entries : List RingEntry) :
    (ringNodes entries).Sorted (fun a b => a ≤ b) :=
  List.sorted_insertionSort _ _

/-- The node list is a permutation of the entry hashes. -/
theorem ringNodes_perm (entries : List RingEntry) :
    (ringNodes entries).Perm (entries.map RingEntry.hash) :=
  List.perm_insertionSort _ _

/-- Ring selection is invariant under permutation of the candidate list,
provided the virtual-node hashes are collision-free. -/
theorem chSelectWith_perm (hash : String → Nat) (replicas : Nat)
    {l1 l2 : List BucketInfo} (key : String) (size size' : Int)
    (hnd : ((ringEntries hash replicas l1).map RingEntry.hash).Nodup)
    (hperm : l1.Perm l2) :
    chSelectWith hash replicas l1 key size =
      chSelectWith hash replicas l2 key size' := by
  have hentries : (ringEntries hash replicas l1).Perm
      (ringEntries hash replicas l2) := hperm.flatMap_right _
  have hhashes : ((ringEntries hash replicas l1).map RingEntry.hash).Perm
      ((ringEntries hash replicas l2).map RingEntry.hash) := hentries.map _
  have hnd2 : ((ringEntries hash replicas l2).map RingEntry.hash).Nodup :=
    hhashes.nodup_iff.1 hnd
  have hnodes : ringNodes (ringEntries hash replicas l1) =
      ringNodes (ringEntries hash replicas l2) := by
    refine List.eq_of_perm_of_sorted ?_ (ringNodes_sorted _) (ringNodes_sorted _)
    exact (ringNodes_perm _).trans (hhashes.trans (ringNodes_perm _).symm)
  rcases l1 with _ | ⟨x, xs⟩
  · have h2 : l2 = [] := hperm.symm.eq_nil
    subst h2
    rfl
  · rcases l2 with _ | ⟨y, ys⟩
    · exact absurd hperm.eq_nil (by simp)
    · simp only [chSelectWith]
      rw [hnodes]
      rcases hch : chooseNode (ringNodes (ringEntries hash replicas (y :: ys)))
          (hash key) with _ | s
      · rfl
      · simp only
        have hspec := chooseNode_spec (ringNodes_sorted _) hch
        have hsmem : s ∈ (ringEntries hash replicas (x :: xs)).map
            RingEntry.hash := by
          have h1 : s ∈ (ringEntries hash replicas (y :: ys)).map
              RingEntry.hash := (ringNodes_perm _).mem_iff.1 hspec.1
          exact hhashes.mem_iff.2 h1
        obtain ⟨e, he, hh⟩ := List.mem_map.1 hsmem
        have hf1 : ringFind (ringEntries hash replicas (x :: xs)) s =
            some e.bucket := by
          rw [← hh]
          exact ringFind_spec _ hnd e he
        have hf2 : ringFind (ringEntries hash replicas (y :: ys)) s =
            some e.bucket := by
          rw [← hh]
          exact ringFind_spec _ hnd2 e (hentries.mem_iff.1 he)
        rw [hf1, hf2]

/-- Removing a candidate that was not selected leaves the ring selection
unchanged, provided the virtual-node hashes are collision-free. -/
theorem chSelectWith_erase (hash : String → Nat) (replicas : Nat)
    (l : List BucketInfo) (key : String) (size : Int) (c sel : BucketInfo)
    (hnd : ((ringEntries hash replicas l).map RingEntry.hash).Nodup)
    (hsel : chSelectWith hash replicas l key size = some sel)
    (hc : c ∈ l) (hne : c ≠ sel) :
    chSelectWith hash replicas (l.erase c) key size = some sel := by
  rcases l with _ | ⟨x, xs⟩
  · exact absurd hc (List.not_mem_nil c)
  · simp only [chSelectWith] at hsel
    rcases hch : chooseNode (ringNodes (ringEntries hash replicas (x :: xs)))
        (hash key) with _ | s
    · rw [hch] at hsel
      exact Option.noConfusion hsel
    · rw [hch] at hsel
      simp only at hsel
      have hspec := chooseNode_spec (ringNodes_sorted _) hch
      have hex := ringFind_mem (ringEntries hash replicas (x :: xs)) none s sel hsel
      rcases hex with ⟨e, he, hh, hb⟩ | hacc
      · have howner := ringEntries_owner hash replicas (x :: xs) e he
        have hselmem : sel ∈ x :: xs := hb ▸ howner.1
        have hselerase : sel ∈ (x :: xs).erase c :=
          (List.mem_erase_of_ne (Ne.symm hne)).2 hselmem
        have hsub : (ringEntries hash replicas ((x :: xs).erase c)).Sublist
            (ringEntries hash replicas (x :: xs)) :=
          sublist_flatMap _ (List.erase_sublist c (x :: xs))
        have hnd' : ((ringEntries hash replicas ((x :: xs).erase c)).map
            RingEntry.hash).Nodup :=
          List.Nodup.sublist (hsub.map RingEntry.hash) hnd
        have hee : e ∈ ringEntries hash replicas ((x :: xs).erase c) := by
          refine List.mem_flatMap.2 ⟨sel, hselerase, ?_⟩
          exact hb ▸ howner.2
        have htrans : ∀ n, n ∈ ringNodes (ringEntries hash replicas
            ((x :: xs).erase c)) →
            n ∈ ringNodes (ringEntries hash replicas (x :: xs)) := by
          intro n hn
          have h1 := (ringNodes_perm _).mem_iff.1 hn
          have h2 := (hsub.map RingEntry.hash).subset h1
          exact (ringNodes_perm _).mem_iff.2 h2
        have hsmem' : s ∈ ringNodes (ringEntries hash replicas
            ((x :: xs).erase c)) := by
          refine (ringNodes_perm _).mem_iff.2 ?_
          rw [← hh]
          exact List.mem_map_of_mem RingEntry.hash hee
        have hch' : chooseNode (ringNodes (ringEntries hash replicas
            ((x :: xs).erase c))) (hash key) = some s := by
          refine chooseNode_intro (ringNodes_sorted _) hsmem' ?_
          rcases hspec.2 with ⟨hle, hmin⟩ | ⟨hall, hmin⟩
          · exact Or.inl ⟨hle, fun n hn hhn => hmin n (htrans n hn) hhn⟩
          · exact Or.inr ⟨fun n hn => hall n (htrans n hn),
              fun n hn => hmin n (htrans n hn)⟩
        have hfind' : ringFind (ringEntries hash replicas ((x :: xs).erase c)) s =
            some sel := by
          rw [← hh, ← hb]
          exact ringFind_spec _ hnd' e hee
        have herasene : (x :: xs).erase c ≠ [] := by
          intro h0
          rw [h0] at hselerase
          exact absurd hselerase (List.not_mem_nil sel)
        rcases herase : (x :: xs).erase c with _ | ⟨z, zs⟩
        · exact absurd herase herasene
        · rw [herase] at hch' hfind'
          simp only [chSelectWith]
          rw [hch']
          exact hfind'
      · exact Option.noConfusion hacc

/-- Claim C4 (amended): provided the candidates' virtual-node hashes are
pairwise distinct — the ring keeps a single owner per 32-bit node hash, so
a collision hands the node to the last candidate in list order, per the
counterexample — the consistent-hash choice is a function of the key and
the candidate *set*: permuting the candidate list does not change the
selected backend (for any sizes, which the strategy ignores), and removing
a candidate other than the selected backend does not change the selection
for that key. -/
theorem claim4_consistent_hash_stable (replicas : Nat)
    (buckets buckets' : List BucketInfo) (key : String) (size size' : Int)
    (hnd : (ringHashes chHash replicas buckets).Nodup)
    (hperm : buckets.Perm buckets') :
    consistentHashSelectBucket replicas buckets key size =
      consistentHashSelectBucket replicas buckets' key size' ∧
    (∀ c sel, consistentHashSelectBucket replicas buckets key size = some sel →
      c ∈ buckets → c ≠ sel →
      consistentHashSelectBucket replicas (buckets.erase c) key size =
        some sel) := by
  constructor
  · exact chSelectWith_perm chHash replicas key size size' hnd hperm
  · intro c sel hsel hc hne
    exact chSelectWith_erase chHash replicas buckets key size c sel hnd hsel hc hne

/-- Counterexample to C4 as stated: the selection is not always invariant
under permutation of the candidate list.  The virtual-node labels `m08-0`
and `yfk-0` share the 32-bit MD5 prefix 1091209121, and the Go ring map
assigns a collided node to whichever candidate was inserted last, so for a
key landing on that node the two orderings of the same candidate set pick
different backends. -/
theorem claim4_counterexample :
    consistentHashSelectBucket 1 [collB1, collB2] "m08-0" 0 = some collB2 ∧
    consistentHashSelectBucket 1 [collB2, collB1] "m08-0" 0 = some collB1 ∧
    collB1 ≠ collB2 := by
  refine ⟨by decide, by decide, by decide⟩

/-- The six virtual-node hashes of the witness ring (two replicas over
`b1`, `b2`, `b3`), evaluated through the MD5 model; they are pairwise
distinct. -/
theorem chWitnessHashes :
    ringHashes chHash 2 [chB1, chB2, chB3] =
      [3072422723, 3334272014, 284678738, 2844680919, 1998207621, 3993726580] := by
  decide

/-- Witness for C4: with two replicas per backend, the key
`user/42/avatar.png` selects `b2`; the selection is unchanged by
reordering the candidates and by removing the non-selected `b1`. -/
theorem claim4_witness :
    consistentHashSelectBucket 2 [chB1, chB2, chB3] chKey 0 =
      consistentHashSelectBucket 2 [chB3, chB1, chB2] chKey 1 ∧
    consistentHashSelectBucket 2 ([chB1, chB2, chB3].erase chB1) chKey 0 =
      some chB2 := by
  have hnd : (ringHashes chHash 2 [chB1, chB2, chB3]).Nodup := by
    rw [chWitnessHashes]
    decide
  have hmain := claim4_consistent_hash_stable 2 [chB1, chB2, chB3]
    [chB3, chB1, chB2] chKey 0 1 hnd (by decide)
  exact ⟨hmain.1, hmain.2 chB1 chB2 (by decide) (by decide) (by decide)⟩

end S3Balance
